import Mathlib

/-! # Verification development for the product crawler

A shallow embedding of `crawler.go` and `extract_skus_from_html.go`:

* the record normaliser of `getProductDetails` (colour list, feature list),
* the retrying fetcher `makeRequest` as an attempt loop over an explicit
  environment of attempt outcomes, returning its result together with the
  ordered list of effects it performed,
* the spreadsheet sink (`getNextExcelRow`, `writeProductToExcel`), the
  delimited-file sink (`writeProductToCSV`) and the main loop,
* the identifier extractor `extractSKUsFromHTML`.

Go `map[string]bool` values are functions `String → Bool` (a missing key reads
as `false`); console output is not modelled.
-/

set_option autoImplicit false

namespace Crawler

/-! ## Data model -/

/-- Contents of a response body or of a file. -/
abbrev Bytes := String

/-- The Go struct `ProductData`. -/
structure ProductData where
  ID : String
  URL : String
  Name : String
  Price : String
  Description : String
  Images : List String
  Sizes : List String
  Colors : List String
  Availability : String
  Brand : String
  Category : String
  Features : List String
  RatingFitting : String
  RatingLength : String
  RatingQuality : String
  RatingComfort : String
  AverageRating : String
  ReviewCount : String
  deriving DecidableEq, Repr

/-- The anonymous struct `data` that `getProductDetails` decodes the JSON
payload into. `CurrentPrice` holds the `%.0f` rendering of the float64 field
`pricing_information.currentPrice` (floating point is not modelled);
`SearchColors` holds the `search_color` of each entry of `product_link_list`,
`ImageURLs` the `image_url` of each listing asset and `VariationSizes` the
`size` of each variation. -/
structure ApiData where
  ID : String
  Name : String
  ImageURLs : List String
  Color : String
  Category : String
  Functions : List String
  ProductFit : List String
  BaseMaterial : List String
  IsOrderable : Bool
  CurrentPrice : String
  Text : String
  Usps : List String
  VariationSizes : List String
  SearchColors : List String
  deriving DecidableEq, Repr

/-! ## Record normaliser (`getProductDetails`, lines 227-276) -/

/-- Assignment `m[k] = true` on a Go `map[string]bool`. -/
def mapSet (m : String → Bool) (k : String) : String → Bool :=
  fun x => if x = k then true else m x

/-- The empty map `make(map[string]bool)`. -/
def emptyMap : String → Bool := fun _ => false

/-- The loop of lines 257-261: append every search colour that differs from
the primary colour and is not empty. -/
def colorLoop (color : String) : List String → List String → List String
  | [], colors => colors
  | searchColor :: links, colors =>
    if searchColor ≠ color ∧ searchColor ≠ "" then
      colorLoop color links (colors ++ [searchColor])
    else
      colorLoop color links colors

/-- Lines 256-261: the colour list of a record. -/
def buildColors (color : String) (searchColors : List String) : List String :=
  colorLoop color searchColors ([] ++ [color])

/-- The loop of lines 270-275: keep a feature when `featureMap` has not seen
it yet. -/
def featureLoop : List String → (String → Bool) → List String → List String
  | [], _, uniqueFeatures => uniqueFeatures
  | f :: rest, featureMap, uniqueFeatures =>
    if !featureMap f then
      featureLoop rest (mapSet featureMap f) (uniqueFeatures ++ [f])
    else
      featureLoop rest featureMap uniqueFeatures

/-- Lines 263-276: the feature list of a record. -/
def buildFeatures (functions productfit base_material usps : List String) : List String :=
  featureLoop ((((([] ++ functions) ++ productfit) ++ base_material) ++ usps)) emptyMap []

/-- Lines 227-276 of `getProductDetails`: the record built from a decoded
payload. -/
def buildProduct (data : ApiData) : ProductData where
  ID := data.ID
  URL := "https://shop.adidas.jp/products/" ++ data.ID
  Name := data.Name
  Price := data.CurrentPrice ++ " JPY"
  Description := data.Text
  Images := data.ImageURLs
  Sizes := data.VariationSizes
  Colors := buildColors data.Color data.SearchColors
  Availability := if data.IsOrderable then "In Stock" else "Out of Stock"
  Brand := "Adidas"
  Category := data.Category
  Features := buildFeatures data.Functions data.ProductFit data.BaseMaterial data.Usps
  RatingFitting := "N/A"
  RatingLength := "N/A"
  RatingQuality := "N/A"
  RatingComfort := "N/A"
  AverageRating := "N/A"
  ReviewCount := "N/A"

/-- First-occurrence deduplication, as the specification words it: every
string is kept at its first occurrence and dropped at every later one. -/
def firstOccurrences : List String → List String
  | [] => []
  | x :: xs => x :: (firstOccurrences xs).filter (fun y => y ≠ x)

/-! ## Retrying fetcher (`makeRequest`, `readResponseBody`) -/

/-- A response body as a reader: `data` is what `io.ReadAll` returns from it
and `err` the read error, if any, that `io.ReadAll` returns with it. -/
structure Stream where
  data : Bytes
  err : Option String
  deriving DecidableEq, Repr

/-- The parts of `*http.Response` that `makeRequest` looks at. -/
structure Response where
  StatusCode : Nat
  ContentEncoding : String
  Body : Stream
  deriving DecidableEq, Repr

/-- What one pass through the attempt loop meets: `http.NewRequest` fails,
`s.client.Do` fails (a transport-level error), or a response arrives. -/
inductive Attempt where
  | newRequestError (err : String)
  | transportError (err : String)
  | response (resp : Response)
  deriving DecidableEq, Repr

/-- The error values `makeRequest` returns, one constructor per `return nil, ...`
of the source. -/
inductive Err where
  | parseURL (err : String)
  | newRequest (err : String)
  | network (err : String)
  | readBody (err : String)
  | status (code : Nat)
  | exhausted (retries : Nat)
  deriving DecidableEq, Repr

/-- The text of an error value (`err.Error()`). -/
def Err.message : Err → String
  | .parseURL e => "failed to parse URL: " ++ e
  | .newRequest e => e
  | .network e => e
  | .readBody e => "failed to read response body: " ++ e
  | .status code => "failed with status: " ++ toString code
  | .exhausted retries => "all " ++ toString retries ++ " attempts failed"

/-- The effects of `makeRequest` and of the main loop that the claims speak
about, in the order they happen: a request sent with `s.client.Do`, a
`time.Sleep` of so many seconds, an `os.WriteFile` of a diagnostic file. -/
inductive Effect where
  | request (url : String)
  | sleep (seconds : Nat)
  | writeFile (name : String) (content : Bytes)
  deriving DecidableEq, Repr

/-- The surroundings of one call of `makeRequest`: the result of `url.Parse`
(the re-serialised URL or an error), the outcome of the attempt with a given
number (attempts count from 1), the raw random draw behind the `rand.Intn` of
an attempt's back-off, and `gzip.NewReader`, whose reader delivers the
decompressed bytes or fails while reading. -/
structure World where
  urlParse : String → Except String String
  attempts : Nat → Attempt
  jitter : Nat → Nat
  gzipNewReader : Stream → Except String Stream

/-- The call `rand.Intn(n)` on a raw draw. -/
def randIntn (draw n : Nat) : Nat := draw % n

/-- The function `readResponseBody`: read the body in full, through a gzip
reader when the `Content-Encoding` header is `gzip`. -/
def readResponseBody (w : World) (resp : Response) : Except String Bytes :=
  let reader : Except String Stream :=
    if resp.ContentEncoding = "gzip" then
      match w.gzipNewReader resp.Body with
      | .error e => .error ("failed to create gzip reader: " ++ e)
      | .ok gzipReader => .ok gzipReader
    else .ok resp.Body
  match reader with
  | .error e => .error e
  | .ok r =>
    match r.err with
    | some e => .error ("failed to read response body: " ++ e)
    | none => .ok r.data

/-- The name `fmt.Sprintf("error_%d_attempt_%d.html", resp.StatusCode, attempt)`. -/
def errorFile (statusCode attempt : Nat) : String :=
  "error_" ++ toString statusCode ++ "_attempt_" ++ toString attempt ++ ".html"

/-- The body of the attempt loop (lines 96-141) for one value of `attempt`:
the effects of this pass and `none` for `continue`, `some r` for `return r`.
Both outcomes of `os.WriteFile` only print a line, so the write is recorded as
an effect and its error is not modelled. -/
def attemptBody (w : World) (url : String) (retries attempt : Nat) :
    List Effect × Option (Except Err Bytes) :=
  match w.attempts attempt with
  | .newRequestError e => ([], some (.error (.newRequest e)))
  | .transportError e =>
    if attempt < retries then
      ([.request url, .sleep (3 + randIntn (w.jitter attempt) 3)], none)
    else
      ([.request url], some (.error (.network e)))
  | .response resp =>
    if resp.StatusCode = 200 then
      match readResponseBody w resp with
      | .error e => ([.request url], some (.error (.readBody e)))
      | .ok body => ([.request url], some (.ok body))
    else
      let body := resp.Body.data
      let saved : List Effect :=
        [.request url, .writeFile (errorFile resp.StatusCode attempt) body]
      if resp.StatusCode = 429 then
        (saved ++ [.sleep (10 + randIntn (w.jitter attempt) 5)], none)
      else if resp.StatusCode = 403 then
        (saved ++ [.sleep (5 + randIntn (w.jitter attempt) 5)], none)
      else
        (saved, some (.error (.status resp.StatusCode)))

/-- The loop `for attempt := 1; attempt <= retries; attempt++` from the value
`attempt` on, with the statement after the loop. The first argument bounds the
number of passes; `retries + 1 - attempt` passes are always enough (see
`attemptLoop_fuel`). -/
def attemptLoop (w : World) (url : String) (retries : Nat) :
    Nat → Nat → Except Err Bytes × List Effect
  | 0, _ => (.error (.exhausted retries), [])
  | fuel + 1, attempt =>
    if attempt ≤ retries then
      match attemptBody w url retries attempt with
      | (effects, some r) => (r, effects)
      | (effects, none) =>
        ((attemptLoop w url retries fuel (attempt + 1)).1,
          effects ++ (attemptLoop w url retries fuel (attempt + 1)).2)
    else
      (.error (.exhausted retries), [])

/-- The function `makeRequest`: its result and the effects it performed. The
budget `retries` is a Go `int`; a budget below 1 runs no attempt, which the
budget 0 stands for. -/
def makeRequest (w : World) (targetURL : String) (retries : Nat) :
    Except Err Bytes × List Effect :=
  match w.urlParse targetURL with
  | .error e => (.error (.parseURL e), [])
  | .ok parsedURL => attemptLoop w parsedURL retries retries 1

/-- Number of requests among the effects. -/
def requestsIssued (effects : List Effect) : Nat :=
  effects.countP (fun e => match e with | .request _ => true | _ => false)

/-- The diagnostic files among the effects, in order: name and content. -/
def artifacts (effects : List Effect) : List (String × Bytes) :=
  effects.filterMap (fun e => match e with | .writeFile n c => some (n, c) | _ => none)

/-- The sleeps among the effects, in order. -/
def sleeps (effects : List Effect) : List Nat :=
  effects.filterMap (fun e => match e with | .sleep d => some d | _ => none)

/-- An attempt that the loop answers with `continue` when attempts remain: a
transport error, a 429 or a 403. -/
def Attempt.retryable : Attempt → Bool
  | .transportError _ => true
  | .response resp => resp.StatusCode = 429 || resp.StatusCode = 403
  | .newRequestError _ => false

/-- The effects of the attempts `1 .. k`, pass by pass. -/
def effectsThrough (w : World) (url : String) (retries k : Nat) : List Effect :=
  (List.range' 1 k).flatMap (fun j => (attemptBody w url retries j).1)

/-- The diagnostic files the specification expects after the attempts
`1 .. k`: one per response whose status is not 200, named by status code and
attempt number and holding the response body. -/
def expectedArtifacts (w : World) (k : Nat) : List (String × Bytes) :=
  (List.range' 1 k).filterMap (fun j =>
    match w.attempts j with
    | .response resp =>
      if resp.StatusCode = 200 then none
      else some (errorFile resp.StatusCode j, resp.Body.data)
    | _ => none)

/-! ## Spreadsheet sink (`getNextExcelRow`, `writeProductToExcel`)

The workbook type comes from the library `excelize`, which is not part of the
repository. The worksheet is a grid that holds, for every cell, the string
that `SetCellValue` was given for it; `SetCellValue` sets one cell (creating
rows and cells up to the target). The library does not keep and return that
string as it is: it cuts a value to 32767 characters when it stores it and
decodes escapes of the form `_xHHHH_` when it reads it. What `GetRows` returns
for a cell that was given the string `v` is `readBack v`, a parameter of the
model; `GetRows` returns the rows so read, with the blank cells at the end of
each row and the blank rows at the end of the sheet left out. -/

/-- The cells of a worksheet, row by row (row 1 first, column A first): each
holds the string `SetCellValue` was given for it, the empty string when the
cell is absent. -/
abbrev Sheet := List (List String)

/-- Apply `f` at index `i` of a list, first extending the list with `d` up to
that index. -/
def setAt {α : Type} (d : α) (f : α → α) : List α → Nat → List α
  | [], 0 => [f d]
  | [], i + 1 => d :: setAt d f [] i
  | x :: xs, 0 => f x :: xs
  | x :: xs, i + 1 => x :: setAt d f xs i

/-- The call `f.SetCellValue(sheet, cell, v)` for the cell in column `col`
(0 for `A`) and row `row`: the cell is given the string `v` (what the library
keeps and reads back of it is `readCell`); a row number below 1 is no cell
name, the call fails and the sheet stays as it is. -/
def Sheet.setCell (s : Sheet) (col row : Nat) (v : String) : Sheet :=
  if row = 0 then s else setAt [] (fun r => setAt "" (fun _ => v) r col) s (row - 1)

/-- A row without the blank cells at its end. -/
def trimRow (r : List String) : List String := r.rdropWhile (fun c => c == "")

/-- What the library reads from a cell that was given the string `v`: nothing
for an absent or empty cell, else `readBack v` (the value cut to 32767
characters, its `_xHHHH_` escapes decoded). -/
def readCell (readBack : String → String) (v : String) : String :=
  if v = "" then "" else readBack v

/-- One row as `GetRows` returns it: the cells read, without the blank ones at
the end. -/
def readRow (readBack : String → String) (r : List String) : List String :=
  trimRow (r.map (readCell readBack))

/-- The result of `f.GetRows(sheet)`. -/
def Sheet.getRows (readBack : String → String) (s : Sheet) : List (List String) :=
  (s.map (readRow readBack)).rdropWhile (fun r => r.isEmpty)

/-- The value read from the cell in column `col` (0 for `A`) and row `row`
(from 1). -/
def Sheet.getCell (readBack : String → String) (s : Sheet) (col row : Nat) : String :=
  readCell readBack ((s.getD (row - 1) []).getD col "")

/-- The open workbook `f` and the file behind it: `sheet` is the worksheet
"Products" in memory (`none` when the workbook has no such sheet, in which case
`GetRows` and `SetCellValue` fail), `disk` the worksheet as last saved. -/
structure ExcelFile where
  sheet : Option Sheet
  disk : Option Sheet
  deriving DecidableEq, Repr

/-- The function `getNextExcelRow`. -/
def getNextExcelRow (readBack : String → String) (f : ExcelFile) : Nat :=
  match f.sheet with
  | none => 1
  | some s => (s.getRows readBack).length + 1

/-- The call `strings.Join(xs, ",")`. -/
def joinComma (xs : List String) : String := String.intercalate "," xs

/-- The seventeen `SetCellValue` calls of `writeProductToExcel`, in order:
column (0 for `A` up to 16 for `Q`) and value. -/
def excelCells (p : ProductData) : List (Nat × String) :=
  [(0, p.ID), (1, p.URL), (2, p.Name), (3, p.Price), (4, p.Category),
   (5, joinComma p.Sizes), (6, joinComma p.Colors), (7, p.Availability),
   (8, p.Description), (9, joinComma p.Images), (10, joinComma p.Features),
   (11, p.RatingFitting), (12, p.RatingLength), (13, p.RatingQuality),
   (14, p.RatingComfort), (15, p.AverageRating), (16, p.ReviewCount)]

/-- A run of `SetCellValue` calls on one row. -/
def writeCells (s : Sheet) (row : Nat) (cells : List (Nat × String)) : Sheet :=
  cells.foldl (fun s c => s.setCell c.1 row c.2) s

/-- The function `writeProductToExcel`: set the seventeen cells of row `row`
(the results of `SetCellValue` are not looked at), then `f.Save()`, whose
outcome is `save` (`none` for success). Returns the workbook and the error. -/
def writeProductToExcel (f : ExcelFile) (row : Nat) (p : ProductData) (save : Option String) :
    ExcelFile × Option String :=
  let f1 : ExcelFile := { f with sheet := f.sheet.map (fun s => writeCells s row (excelCells p)) }
  match save with
  | some err =>
    (f1, some ("failed to save Excel file for row " ++ toString row ++ " (ID " ++ p.ID ++ "): "
      ++ err))
  | none => ({ f1 with disk := f1.sheet }, none)

/-! ## Delimited-file sink (`writeProductToCSV`) -/

/-- The `record` of `writeProductToCSV`. -/
def csvRecord (p : ProductData) : List String :=
  [p.ID, p.URL, p.Name, p.Price, p.Category, joinComma p.Sizes, joinComma p.Colors,
   p.Availability, p.Description, joinComma p.Images, joinComma p.Features,
   p.RatingFitting, p.RatingLength, p.RatingQuality, p.RatingComfort, p.AverageRating,
   p.ReviewCount]

/-- The function `writeProductToCSV` on the records the file holds: `write` is
the outcome of `w.Write(record)` and `flush` the outcome of `w.Error()` after
`w.Flush()` (`none` for success); the record counts as appended when both
succeed. -/
def writeProductToCSV (csv : List (List String)) (p : ProductData)
    (write flush : Option String) : List (List String) × Option String :=
  match write with
  | some err => (csv, some ("failed to write CSV for ID " ++ p.ID ++ ": " ++ err))
  | none =>
    match flush with
    | some err => (csv, some ("failed to flush CSV for ID " ++ p.ID ++ ": " ++ err))
    | none => (csv ++ [csvRecord p], none)

/-! ## `getProductDetails` and the main loop -/

/-- The function `getProductDetails`: fetch with a budget of 5 attempts, decode
the payload with `unmarshal` (standing for `json.Unmarshal` into `data`), build
the record. Returns the result and the effects of the fetch. -/
def getProductDetails (unmarshal : Bytes → Except String ApiData) (w : World) (id : String) :
    Except String ProductData × List Effect :=
  let apiURL := "https://www.adidas.jp" ++ "/api/products/" ++ id
  match makeRequest w apiURL 5 with
  | (.error err, effects) =>
    (.error ("failed to fetch product " ++ id ++ ": " ++ err.message), effects)
  | (.ok body, effects) =>
    match unmarshal body with
    | .error err => (.error ("failed to parse JSON for " ++ id ++ ": " ++ err), effects)
    | .ok data => (.ok (buildProduct data), effects)

/-- The surroundings of one pass of the main loop: those of the fetch, the
outcomes of `f.Save()`, of `w.Write` and of the flush (`none` for success), and
the raw random draw behind the `rand.Intn(3)` of the closing delay. -/
structure IdWorld where
  fetch : World
  save : Option String
  csvWrite : Option String
  csvFlush : Option String
  delay : Nat

/-- The state the main loop works on: the workbook, the records of the
delimited file, and the effects so far. -/
structure State where
  excel : ExcelFile
  csv : List (List String)
  effects : List Effect
  deriving DecidableEq, Repr

/-- The body of the main loop (lines 526-545) for one identifier; each
`continue` of the source is a branch that returns the state at once.
`readBack` is what the spreadsheet library reads back of a cell value. -/
def processID (unmarshal : Bytes → Except String ApiData) (readBack : String → String)
    (iw : IdWorld) (id : String) (st : State) : State :=
  match getProductDetails unmarshal iw.fetch id with
  | (.error _, fetched) => { st with effects := st.effects ++ fetched }
  | (.ok product, fetched) =>
    let row := getNextExcelRow readBack st.excel
    match writeProductToExcel st.excel row product iw.save with
    | (excel, some _) => { st with excel := excel, effects := st.effects ++ fetched }
    | (excel, none) =>
      match writeProductToCSV st.csv product iw.csvWrite iw.csvFlush with
      | (csv, some _) => { excel := excel, csv := csv, effects := st.effects ++ fetched }
      | (csv, none) =>
        { excel := excel, csv := csv,
          effects := st.effects ++ fetched ++ [.sleep (2 + randIntn iw.delay 3)] }

/-- The loop `for i, id := range ids` of `main`, from index `i` on; `ws i` is
the surroundings of the pass with index `i`. -/
def mainLoop (unmarshal : Bytes → Except String ApiData) (readBack : String → String)
    (ws : Nat → IdWorld) : List String → Nat → State → State
  | [], _, st => st
  | id :: ids, i, st =>
    mainLoop unmarshal readBack ws ids (i + 1) (processID unmarshal readBack (ws i) id st)

/-- A run of `SetCellValue` calls seen on the row they write. -/
def rowFold (cells : List (Nat × String)) (r : List String) : List String :=
  cells.foldl (fun r c => setAt "" (fun _ => c.2) r c.1) r

/-! ## Identifier extractor (`extract_skus_from_html.go`)

The two patterns are compiled by Go's `regexp` package, a library outside the
repository. Its matching is modelled by a backtracking matcher over the atoms
the two patterns use; a backtracking search that tries a greedy star longest
first finds the leftmost-first match that the package documents, and
`FindAllStringSubmatch` returns the successive non-overlapping matches, each
as the matched text followed by the text of capture group 1. -/

/-- The pieces of the two patterns: a literal character, one character of a
class, a greedy starred class such as `[^"]*`, the word boundary `\b`, and the
parentheses of capture group 1. -/
inductive Atom where
  | char (c : Char)
  | cls (p : Char → Bool)
  | star (p : Char → Bool)
  | wordBoundary
  | groupOpen
  | groupClose

/-- What a match in progress has consumed: the matched text and the text of
capture group 1, both latest character first, and whether group 1 is open. -/
structure MatchState where
  whole : List Char
  group : List Char
  inGroup : Bool

/-- Consume one character. -/
def MatchState.push (st : MatchState) (c : Char) : MatchState :=
  { st with whole := c :: st.whole, group := if st.inGroup then c :: st.group else st.group }

/-- The ASCII word characters of `\b`: digits, letters and the underscore. -/
def isWordChar (c : Char) : Bool :=
  (48 ≤ c.toNat && c.toNat ≤ 57) || (65 ≤ c.toNat && c.toNat ≤ 90)
    || (97 ≤ c.toNat && c.toNat ≤ 122) || c.toNat = 95

/-- Whether the character on one side of a position is a word character; the
start and the end of the text are not. -/
def isWordOpt : Option Char → Bool
  | none => false
  | some c => isWordChar c

/-- A greedy starred class followed by the continuation `k`: take one more
character when the class allows it and the rest then matches, else go on with
`k` here. `prev` is the character before the position. -/
def starLoop (p : Char → Bool)
    (k : Option Char → List Char → MatchState → Option (MatchState × List Char)) :
    Option Char → List Char → MatchState → Option (MatchState × List Char)
  | prev, [], st => k prev [] st
  | prev, c :: cs, st =>
    if p c then
      match starLoop p k (some c) cs (st.push c) with
      | some r => some r
      | none => k prev (c :: cs) st
    else k prev (c :: cs) st

/-- Match a pattern at a position: `prev` is the character before it, the list
the text from it on. Returns the final state and the text after the match. -/
def matchHere : List Atom → Option Char → List Char → MatchState →
    Option (MatchState × List Char)
  | [], _, input, st => some (st, input)
  | .char a :: rest, _, input, st =>
    match input with
    | c :: cs => if c = a then matchHere rest (some c) cs (st.push c) else none
    | [] => none
  | .cls p :: rest, _, input, st =>
    match input with
    | c :: cs => if p c then matchHere rest (some c) cs (st.push c) else none
    | [] => none
  | .star p :: rest, prev, input, st => starLoop p (matchHere rest) prev input st
  | .wordBoundary :: rest, prev, input, st =>
    if isWordOpt prev != isWordOpt input.head? then matchHere rest prev input st else none
  | .groupOpen :: rest, prev, input, st =>
    matchHere rest prev input { st with group := [], inGroup := true }
  | .groupClose :: rest, prev, input, st =>
    matchHere rest prev input { st with inGroup := false }

/-- One entry of the result of `FindAllStringSubmatch`: the matched text and
the text of capture group 1. -/
def submatches (st : MatchState) : List String :=
  [String.mk st.whole.reverse, String.mk st.group.reverse]

/-- The scan of `FindAllStringSubmatch(s, -1)` from a position: `skip` counts
the characters still inside the previous match, `ended` tells that a match
ended right here (an empty match there is dropped). -/
def findAllLoop (re : List Atom) : Option Char → List Char → Nat → Bool → List (List String)
  | prev, [], skip, ended =>
    match skip, matchHere re prev [] ⟨[], [], false⟩ with
    | 0, some (st, _) => if ended then [] else [submatches st]
    | _, _ => []
  | prev, c :: cs, 0, ended =>
    match matchHere re prev (c :: cs) ⟨[], [], false⟩ with
    | some (st, _) =>
      match st.whole.length with
      | 0 => if ended then findAllLoop re (some c) cs 0 false
             else submatches st :: findAllLoop re (some c) cs 0 false
      | m + 1 => submatches st :: findAllLoop re (some c) cs m (m = 0)
    | none => findAllLoop re (some c) cs 0 false
  | _, c :: cs, skip + 1, _ => findAllLoop re (some c) cs skip (skip = 0)

/-- The call `re.FindAllStringSubmatch(s, -1)`. -/
def FindAllStringSubmatch (re : List Atom) (s : String) : List (List String) :=
  findAllLoop re none s.toList 0 false

/-- A literal string as a pattern. -/
def lit (s : String) : List Atom := s.toList.map Atom.char

/-- The class `[A-Z]`. -/
def isUpper (c : Char) : Bool := 65 ≤ c.toNat && c.toNat ≤ 90
/-- The class `[0-9]`. -/
def isDigit (c : Char) : Bool := 48 ≤ c.toNat && c.toNat ≤ 57
/-- The class `[^"]`. -/
def notQuote (c : Char) : Bool := c != '"'

/-- The group `([A-Z]{2}[0-9]{4})`. -/
def skuGroup : List Atom :=
  [.groupOpen, .cls isUpper, .cls isUpper, .cls isDigit, .cls isDigit, .cls isDigit,
   .cls isDigit, .groupClose]

/-- The pattern `href="[^"]*/products/([A-Z]{2}[0-9]{4})[^"]*"` of line 45. -/
def linkRe : List Atom :=
  lit "href=\"" ++ [.star notQuote] ++ lit "/products/" ++ skuGroup ++ [.star notQuote] ++ lit "\""

/-- The pattern `\b([A-Z]{2}[0-9]{4})\b` of line 59. -/
def textRe : List Atom := [.wordBoundary] ++ skuGroup ++ [.wordBoundary]

/-- The loops of lines 48-57 and 62-71 over a list of matches, on the pair of
`skus` and `skuMap`: a match with a capture adds its identifier when neither
`skuMap` nor `existingSKUs` holds it. -/
def collectLoop (existingSKUs : String → Bool) :
    List (List String) → List String × (String → Bool) → List String × (String → Bool)
  | [], acc => acc
  | m :: rest, (skus, skuMap) =>
    if m.length > 1 then
      let sku := m.getD 1 ""
      if !skuMap sku && !existingSKUs sku then
        collectLoop existingSKUs rest (skus ++ [sku], mapSet skuMap sku)
      else collectLoop existingSKUs rest (skus, skuMap)
    else collectLoop existingSKUs rest (skus, skuMap)

/-- The function `extractSKUsFromHTML`; `readFile` stands for `os.ReadFile`. -/
def extractSKUsFromHTML (readFile : String → Except String String) (filePath : String)
    (existingSKUs : String → Bool) : Except String (List String) :=
  match readFile filePath with
  | .error err => .error ("failed to read file " ++ filePath ++ ": " ++ err)
  | .ok bodyStr =>
    let linkMatches := FindAllStringSubmatch linkRe bodyStr
    let afterLinks := collectLoop existingSKUs linkMatches ([], emptyMap)
    let textMatches := FindAllStringSubmatch textRe bodyStr
    let afterText := collectLoop existingSKUs textMatches afterLinks
    .ok afterText.1


/-- Whether an atom opens capture group 1. -/
def Atom.opensGroup : Atom → Bool
  | .groupOpen => true
  | _ => false

/-- The shape of an identifier: two uppercase letters followed by four digits. -/
def isSKU (s : String) : Bool :=
  match s.toList with
  | [a, b, c, d, e, f] =>
    isUpper a && isUpper b && isDigit c && isDigit d && isDigit e && isDigit f
  | _ => false

/-- The page of the specification's example. -/
def samplePage : String := "<a href=\"/products/AB1234?x=1\">x</a> CD5678"

/-- The number a list of decimal digit characters stands for; used to read a
rendered `%d` back. -/
def readDecimal (l : List Char) : Nat :=
  l.foldl (fun acc c => 10 * acc + (c.toNat - 48)) 0

/-- Sample surroundings of `makeRequest`: every URL parses to itself, the raw
draw of attempt `j` is `j`, and the gzip reader hands the stream on. -/
def sampleWorld (attempts : Nat → Attempt) : World where
  urlParse := fun targetURL => .ok targetURL
  attempts := attempts
  jitter := fun j => j
  gzipNewReader := fun body => .ok body

/-- A response with the given status and body and no `Content-Encoding`. -/
def plainResponse (statusCode : Nat) (body : Bytes) : Attempt :=
  .response { StatusCode := statusCode, ContentEncoding := "", Body := { data := body, err := none } }

/-- Sample attempts: a 429, a transport error, a 404, then 200 throughout. -/
def sampleAttempts404 : Nat → Attempt
  | 1 => plainResponse 429 "slow down"
  | 2 => .transportError "timeout"
  | 3 => plainResponse 404 "not found"
  | _ => plainResponse 200 "ok"

/-- Sample attempts: a transport error, a 403, then 200 throughout. -/
def sampleAttempts200 : Nat → Attempt
  | 1 => .transportError "timeout"
  | 2 => plainResponse 403 "forbidden"
  | _ => plainResponse 200 "payload"

/-- Sample attempts: a 429, then transport errors throughout. -/
def sampleAttemptsNetwork : Nat → Attempt
  | 1 => plainResponse 429 "slow down"
  | _ => .transportError "connection refused"

/-- Sample surroundings with a gzip reader that delivers the body with
"unzipped:" put in front, so that a decompressed body differs from the raw one. -/
def sampleGzipWorld (attempts : Nat → Attempt) : World where
  urlParse := fun targetURL => .ok targetURL
  attempts := attempts
  jitter := fun j => j
  gzipNewReader := fun body => .ok { data := "unzipped:" ++ body.data, err := none }

/-- Sample attempts: a transport error, a 403, then a gzip-encoded 200
throughout. -/
def sampleAttemptsGzip : Nat → Attempt
  | 1 => .transportError "timeout"
  | 2 => plainResponse 403 "forbidden"
  | _ => .response { StatusCode := 200, ContentEncoding := "gzip",
                     Body := { data := "zipped", err := none } }

/-- Sample behaviour of the spreadsheet library: a value is cut to 32767
characters and read back as it then is. -/
def sampleReadBack (v : String) : String := String.mk (v.data.take 32767)

/-- Sample decoder: every payload decodes to the same product. -/
def sampleUnmarshal : Bytes → Except String ApiData := fun _ =>
  .ok { ID := "AB1234", Name := "Shoe", ImageURLs := [], Color := "black", Category := "shoes",
        Functions := [], ProductFit := [], BaseMaterial := [], IsOrderable := true,
        CurrentPrice := "100", Text := "", Usps := [], VariationSizes := [],
        SearchColors := [] }

/-- Sample pass: the fetch meets `attempts`, the sinks behave as given. -/
def sampleIdWorld (attempts : Nat → Attempt) (save csvWrite : Option String) : IdWorld where
  fetch := sampleWorld attempts
  save := save
  csvWrite := csvWrite
  csvFlush := none
  delay := 1

/-- Sample state: a workbook whose sheet holds the header row only, an empty
delimited file, no effects. -/
def sampleState : State where
  excel := { sheet := some [["ID", "URL"]], disk := some [["ID", "URL"]] }
  csv := []
  effects := []

/-- Sample passes for two identifiers: the fetch of the first (index 0) meets a
404, every later fetch a 200; both sinks work. -/
def sampleWorlds404 : Nat → IdWorld
  | 0 => sampleIdWorld (fun _ => plainResponse 404 "not found") none none
  | _ => sampleIdWorld (fun _ => plainResponse 200 "payload") none none

/-! ## Identifier file (`readSKUs`) -/

/-- The predicate `unicode.IsSpace`, which `strings.TrimSpace` trims by: tab,
line feed, vertical tab, form feed, carriage return, space, U+0085, U+00A0 and
the space characters of the Unicode category Z. -/
def isSpace (c : Char) : Bool :=
  c.toNat = 9 || c.toNat = 10 || c.toNat = 11 || c.toNat = 12 || c.toNat = 13 || c.toNat = 32
    || c.toNat = 0x85 || c.toNat = 0xA0 || c.toNat = 0x1680
    || (0x2000 ≤ c.toNat && c.toNat ≤ 0x200A)
    || c.toNat = 0x2028 || c.toNat = 0x2029 || c.toNat = 0x202F || c.toNat = 0x205F
    || c.toNat = 0x3000

/-- What `strings.TrimSpace` leaves of a text: the white space at the start is
dropped, then the white space at the end. -/
def trimChars (l : List Char) : List Char := (l.dropWhile isSpace).rdropWhile isSpace

/-- The call `strings.TrimSpace(s)`. -/
def TrimSpace (s : String) : String := String.mk (trimChars s.data)

/-- The pieces of a text between its line feeds; a text without a line feed is
one piece, the empty text included. -/
def splitChars : List Char → List (List Char)
  | [] => [[]]
  | c :: cs =>
    if c = '\n' then [] :: splitChars cs
    else
      match splitChars cs with
      | [] => [[c]]
      | first :: rest => (c :: first) :: rest

/-- The call `strings.Split(s, "\n")`. -/
def splitLines (s : String) : List String := (splitChars s.data).map String.mk

/-- The loop of lines 170-175 of `readSKUs`: trim each line and keep it when it
is not empty. -/
def readLoop : List String → List String → List String
  | [], ids => ids
  | line :: lines, ids =>
    if TrimSpace line ≠ "" then readLoop lines (ids ++ [TrimSpace line])
    else readLoop lines ids

/-- The function `readSKUs`; `readFile` stands for `os.ReadFile`. -/
def readSKUs (readFile : String → Except String String) (filename : String) :
    Except String (List String) :=
  match readFile filename with
  | .error err => .error ("failed to read IDs file: " ++ err)
  | .ok data => .ok (readLoop (splitLines (TrimSpace data)) [])

/-- The identifier list as the specification words it: the lines of the file
in order, each trimmed of surrounding white space, the blank ones left out. -/
def trimmedLines (data : String) : List String :=
  ((splitLines data).map TrimSpace).filter (fun id => id ≠ "")

/-- Add a character to the end of the last piece. -/
def appendLast (c : Char) : List (List Char) → List (List Char)
  | [] => [[c]]
  | [x] => [x ++ [c]]
  | x :: y :: rest => x :: appendLast c (y :: rest)

/-- Trim every piece and leave out the empty results. -/
def keptChars (ls : List (List Char)) : List (List Char) :=
  (ls.map trimChars).filter (fun l => !l.isEmpty)

/-! ## Header rows (`initExcel`, `initCSV`) -/

/-- The `headers` of `initExcel` (lines 318-323). -/
def excelHeaders : List String :=
  ["ID", "URL", "Name", "Price", "Category", "Sizes", "Colors", "Availability",
   "Description", "Images", "Features", "Sense of Fitting Rating",
   "Length Appropriation Rating", "Material Quality Rating", "Comfort Rating",
   "Average Rating", "Review Count"]

/-- The `headers` of `initCSV` (lines 369-374). -/
def csvHeaders : List String :=
  ["ID", "URL", "Name", "Price", "Category", "Sizes", "Colors", "Availability",
   "Description", "Images", "Features", "Sense of Fitting Rating",
   "",
   "Material Quality Rating", "Comfort Rating", "Average Rating", "Review Count"]

/-- The function `initExcel`: `existing` is `none` when `os.Stat` finds no file
and else the outcome of `excelize.OpenFile` (the sheet "Products" of the opened
workbook, if it has one); `newSheet`, `newStyle` and `saveAs` are the outcomes
of `f.NewSheet`, `f.NewStyle` and `f.SaveAs` (`none` for success). A new
workbook gets the header `headers[col]` in the cell of column `col` and row 1. -/
def initExcel (filename : String) (existing : Option (Except String (Option Sheet)))
    (newSheet newStyle saveAs : Option String) : Except String ExcelFile :=
  let opened : Except String (Option Sheet) :=
    match existing with
    | some (.error err) =>
      .error ("failed to open existing Excel file " ++ filename ++ ": " ++ err)
    | some (.ok sheet) => .ok sheet
    | none =>
      match newSheet with
      | some err => .error ("failed to create new sheet: " ++ err)
      | none =>
        match newStyle with
        | some err => .error ("failed to create header style: " ++ err)
        | none => .ok (some (writeCells [] 1 (excelHeaders.enumFrom 0)))
  match opened with
  | .error err => .error err
  | .ok sheet =>
    match saveAs with
    | some err => .error ("failed to save initial Excel file " ++ filename ++ ": " ++ err)
    | none => .ok { sheet := sheet, disk := sheet }

/-- The function `initCSV` on the records the file holds: `openFile` and `stat`
are the outcomes of `os.OpenFile` and `file.Stat` (`none` for success), `size`
is `stat.Size()`, `write` the outcome of `writer.Write(headers)`. -/
def initCSV (filename : String) (openFile stat : Option String) (size : Nat)
    (csv : List (List String)) (write : Option String) : Except String (List (List String)) :=
  match openFile with
  | some err => .error ("failed to open CSV file " ++ filename ++ ": " ++ err)
  | none =>
    match stat with
    | some err => .error ("failed to stat CSV file " ++ filename ++ ": " ++ err)
    | none =>
      if size = 0 then
        match write with
        | some err => .error ("failed to write CSV headers: " ++ err)
        | none => .ok (csv ++ [csvHeaders])
      else .ok csv

end Crawler

namespace Crawler

/-! ## Lemmas on the normaliser -/

theorem featureLoop_eq (l : List String) (m : String → Bool) (acc : List String) :
    featureLoop l m acc = acc ++ (firstOccurrences l).filter (fun x => !m x) := by
  induction l generalizing m acc with
  | nil => simp [featureLoop, firstOccurrences]
  | cons f rest ih =>
    by_cases hf : m f = true
    · have hfilter : ((firstOccurrences rest).filter (fun y => y ≠ f)).filter (fun x => !m x)
          = (firstOccurrences rest).filter (fun x => !m x) := by
        rw [List.filter_filter]
        apply List.filter_congr
        intro x _
        by_cases hx : x = f
        · subst hx; simp [hf]
        · simp [hx]
      have hstep : featureLoop (f :: rest) m acc = featureLoop rest m acc := by
        simp [featureLoop, hf]
      have hhead : (firstOccurrences (f :: rest)).filter (fun x => !m x)
          = ((firstOccurrences rest).filter (fun y => y ≠ f)).filter (fun x => !m x) := by
        show (f :: _).filter _ = _
        rw [List.filter_cons]
        simp [hf]
      rw [hstep, hhead, hfilter, ih]
    · have hf' : m f = false := by simpa using hf
      have hfilter : (firstOccurrences rest).filter (fun x => !mapSet m f x)
          = ((firstOccurrences rest).filter (fun y => y ≠ f)).filter (fun x => !m x) := by
        rw [List.filter_filter]
        apply List.filter_congr
        intro x _
        by_cases hx : x = f
        · subst hx; simp [mapSet]
        · simp [mapSet, hx]
      have hstep : featureLoop (f :: rest) m acc
          = featureLoop rest (mapSet m f) (acc ++ [f]) := by
        simp [featureLoop, hf']
      have hhead : (firstOccurrences (f :: rest)).filter (fun x => !m x)
          = f :: ((firstOccurrences rest).filter (fun y => y ≠ f)).filter (fun x => !m x) := by
        show (f :: _).filter _ = _
        rw [List.filter_cons]
        simp [hf']
      rw [hstep, hhead, ih, hfilter]
      simp

theorem mem_firstOccurrences (l : List String) (x : String) :
    x ∈ firstOccurrences l ↔ x ∈ l := by
  induction l with
  | nil => simp [firstOccurrences]
  | cons a rest ih =>
    simp only [firstOccurrences, List.mem_cons, List.mem_filter, ih]
    by_cases hx : x = a <;> simp [hx]

theorem nodup_firstOccurrences (l : List String) : (firstOccurrences l).Nodup := by
  induction l with
  | nil => simp [firstOccurrences]
  | cons a rest ih =>
    simp only [firstOccurrences, List.nodup_cons, List.mem_filter]
    exact ⟨by simp, ih.filter _⟩

theorem colorLoop_eq (p : String) (cs acc : List String) :
    colorLoop p cs acc = acc ++ cs.filter (fun c => decide (c ≠ p ∧ c ≠ "")) := by
  induction cs generalizing acc with
  | nil => simp [colorLoop]
  | cons c rest ih =>
    by_cases hc : c ≠ p ∧ c ≠ ""
    · simp [colorLoop, hc, ih, List.filter_cons]
    · simp only [colorLoop, hc, ih, List.filter_cons]
      simp

/-! ## Claims on the normaliser -/

/-- C1: the feature list built by `getProductDetails` is the first-occurrence
deduplication of `functions ++ productfit ++ base_material ++ usps`: it has no
string twice, it has exactly the strings of the concatenation, it keeps them in
the order of their first occurrence, and the four lists of the specification's
example give `["a","b","c","d"]`. -/
theorem C1_features_first_occurrence (functions productfit base_material usps : List String) :
    buildFeatures functions productfit base_material usps
        = firstOccurrences (functions ++ productfit ++ base_material ++ usps)
      ∧ (buildFeatures functions productfit base_material usps).Nodup
      ∧ (∀ x, x ∈ buildFeatures functions productfit base_material usps
            ↔ x ∈ functions ++ productfit ++ base_material ++ usps)
      ∧ (buildProduct
            { ID := "", Name := "", ImageURLs := [], Color := "", Category := "",
              Functions := ["a", "b"], ProductFit := ["b", "c"], BaseMaterial := ["c"],
              IsOrderable := false, CurrentPrice := "", Text := "", Usps := ["a", "d"],
              VariationSizes := [], SearchColors := [] }).Features = ["a", "b", "c", "d"] := by
  have h : buildFeatures functions productfit base_material usps
      = firstOccurrences (functions ++ productfit ++ base_material ++ usps) := by
    simp [buildFeatures, featureLoop_eq, emptyMap]
  refine ⟨h, ?_, ?_, ?_⟩
  · rw [h]; exact nodup_firstOccurrences _
  · intro x; rw [h]; exact mem_firstOccurrences _ x
  · decide

/-- C2: the colour list of the record that `getProductDetails` builds is the
primary colour followed by exactly the search colours, in order, that are not
empty and differ from the primary colour; repeated search colours are kept, and
the record built for the specification's example carries
`["black","red","red","blue"]`. -/
theorem C2_colors_primary_then_filtered (data : ApiData) :
    (buildProduct data).Colors
        = data.Color :: data.SearchColors.filter (fun c => decide (c ≠ data.Color ∧ c ≠ ""))
      ∧ (∀ (p : String) (cs : List String),
          buildColors p cs = p :: cs.filter (fun c => decide (c ≠ p ∧ c ≠ "")))
      ∧ (buildProduct
            { ID := "", Name := "", ImageURLs := [], Color := "black", Category := "",
              Functions := [], ProductFit := [], BaseMaterial := [],
              IsOrderable := false, CurrentPrice := "", Text := "", Usps := [],
              VariationSizes := [], SearchColors := ["black", "red", "red", "blue"] }).Colors
          = ["black", "red", "red", "blue"] := by
  have h : ∀ (p : String) (cs : List String),
      buildColors p cs = p :: cs.filter (fun c => decide (c ≠ p ∧ c ≠ "")) := by
    intro p cs
    simp [buildColors, colorLoop_eq]
  refine ⟨?_, h, ?_⟩
  · show buildColors data.Color data.SearchColors = _
    exact h _ _
  · decide

end Crawler

namespace Crawler

/-! ## Lemmas on the attempt loop -/

theorem attemptLoop_fuel (w : World) (url : String) (retries extra : Nat) :
    ∀ (fuel attempt : Nat), retries + 1 ≤ fuel + attempt →
      attemptLoop w url retries (fuel + extra) attempt = attemptLoop w url retries fuel attempt := by
  intro fuel
  induction fuel with
  | zero =>
    intro attempt h
    have hgt : ¬ attempt ≤ retries := by omega
    cases extra with
    | zero => rfl
    | succ e => simp [attemptLoop, hgt]
  | succ fuel ih =>
    intro attempt h
    have hrw : fuel + 1 + extra = (fuel + extra) + 1 := by omega
    rw [hrw]
    simp only [attemptLoop]
    rw [ih (attempt + 1) (by omega)]

theorem attemptLoop_skip (w : World) (url : String) (retries fuel : Nat) :
    ∀ (m a : Nat), a + m ≤ retries + 1 →
      (∀ j, a ≤ j → j < a + m → (attemptBody w url retries j).2 = none) →
      attemptLoop w url retries (fuel + m) a
        = ((attemptLoop w url retries fuel (a + m)).1,
            (List.range' a m).flatMap (fun j => (attemptBody w url retries j).1)
              ++ (attemptLoop w url retries fuel (a + m)).2) := by
  intro m
  induction m with
  | zero => intro a _ _; simp
  | succ m ih =>
    intro a hle hcont
    have hrw : fuel + (m + 1) = (fuel + m) + 1 := by omega
    have ha : a ≤ retries := by omega
    have hnone : (attemptBody w url retries a).2 = none := hcont a (Nat.le_refl a) (by omega)
    have hih := ih (a + 1) (by omega) (fun j h1 h2 => hcont j (by omega) (by omega))
    have hidx : a + 1 + m = a + (m + 1) := by omega
    rw [hidx] at hih
    rw [hrw]
    simp only [attemptLoop, ha, if_true]
    generalize hb : attemptBody w url retries a = b at hnone
    obtain ⟨effects, r⟩ := b
    simp only at hnone
    subst hnone
    simp only [hih, List.range'_succ, List.flatMap_cons, List.append_assoc, hb]

theorem attemptBody_retryable (w : World) (url : String) (retries j : Nat)
    (hr : (w.attempts j).retryable = true) (hj : j < retries) :
    (attemptBody w url retries j).2 = none := by
  unfold attemptBody
  cases h : w.attempts j with
  | newRequestError e => simp [h, Attempt.retryable] at hr
  | transportError e => simp [hj]
  | response resp =>
    simp only [h, Attempt.retryable, Bool.or_eq_true, decide_eq_true_eq] at hr
    rcases hr with h429 | h403
    · simp [h429]
    · simp [h403]

theorem artifacts_attemptBody (w : World) (url : String) (retries j : Nat) :
    artifacts (attemptBody w url retries j).1
      = (match w.attempts j with
          | .response resp =>
            if resp.StatusCode = 200 then []
            else [(errorFile resp.StatusCode j, resp.Body.data)]
          | _ => []) := by
  unfold attemptBody
  cases h : w.attempts j with
  | newRequestError e => simp [artifacts]
  | transportError e =>
    by_cases hj : j < retries <;> simp [hj, artifacts]
  | response resp =>
    by_cases h200 : resp.StatusCode = 200
    · simp only [h200, if_true]
      cases readResponseBody w resp <;> simp [artifacts]
    · by_cases h429 : resp.StatusCode = 429
      · simp [h429, artifacts]
      · by_cases h403 : resp.StatusCode = 403
        · simp [h403, artifacts]
        · simp [h200, h429, h403, artifacts]

theorem artifacts_append (a b : List Effect) : artifacts (a ++ b) = artifacts a ++ artifacts b := by
  simp [artifacts]

theorem requestsIssued_append (a b : List Effect) :
    requestsIssued (a ++ b) = requestsIssued a + requestsIssued b := by
  simp [requestsIssued]

theorem artifacts_flatMap_range (w : World) (url : String) (retries : Nat) :
    ∀ (k a : Nat),
      artifacts ((List.range' a k).flatMap (fun j => (attemptBody w url retries j).1))
        = (List.range' a k).filterMap (fun j =>
            match w.attempts j with
            | .response resp =>
              if resp.StatusCode = 200 then none
              else some (errorFile resp.StatusCode j, resp.Body.data)
            | _ => none) := by
  intro k
  induction k with
  | zero => intro a; simp [artifacts]
  | succ k ih =>
    intro a
    rw [List.range'_succ, List.flatMap_cons, artifacts_append, ih, List.filterMap_cons,
      artifacts_attemptBody]
    cases h : w.attempts a with
    | newRequestError e => simp
    | transportError e => simp
    | response resp =>
      by_cases h200 : resp.StatusCode = 200 <;> simp [h200]

theorem artifacts_effectsThrough (w : World) (url : String) (retries k : Nat) :
    artifacts (effectsThrough w url retries k) = expectedArtifacts w k :=
  artifacts_flatMap_range w url retries k 1

theorem requestsIssued_attemptBody (w : World) (url : String) (retries j : Nat)
    (h : (attemptBody w url retries j).2 = none) :
    requestsIssued (attemptBody w url retries j).1 = 1 := by
  unfold attemptBody at h ⊢
  cases ha : w.attempts j with
  | newRequestError e => simp [ha] at h
  | transportError e =>
    by_cases hj : j < retries <;> simp [hj, requestsIssued]
  | response resp =>
    by_cases h200 : resp.StatusCode = 200
    · simp only [ha, h200, if_true] at h
      cases hb : readResponseBody w resp <;> simp [hb] at h
    · by_cases h429 : resp.StatusCode = 429
      · simp [h429, requestsIssued]
      · by_cases h403 : resp.StatusCode = 403
        · simp [h403, requestsIssued]
        · simp [h200, h429, h403, requestsIssued]

theorem requestsIssued_flatMap_range (w : World) (url : String) (retries : Nat) :
    ∀ (k a : Nat), (∀ j, a ≤ j → j < a + k → (attemptBody w url retries j).2 = none) →
      requestsIssued ((List.range' a k).flatMap (fun j => (attemptBody w url retries j).1)) = k := by
  intro k
  induction k with
  | zero => intro a _; simp [requestsIssued]
  | succ k ih =>
    intro a h
    rw [List.range'_succ, List.flatMap_cons, requestsIssued_append,
      requestsIssued_attemptBody w url retries a (h a (Nat.le_refl a) (by omega)),
      ih (a + 1) (fun j h1 h2 => h j (by omega) (by omega))]
    omega

theorem requestsIssued_effectsThrough (w : World) (url : String) (retries k : Nat)
    (h : ∀ j, 1 ≤ j → j < 1 + k → (attemptBody w url retries j).2 = none) :
    requestsIssued (effectsThrough w url retries k) = k :=
  requestsIssued_flatMap_range w url retries k 1 h

/-! ## Names of diagnostic files -/

theorem digitChar_value (d : Nat) (h : d < 10) : (Nat.digitChar d).toNat - 48 = d := by
  interval_cases d <;> rfl

theorem foldl_toDigitsCore (fuel : Nat) : ∀ (n : Nat) (ds : List Char), n < fuel →
    (Nat.toDigitsCore 10 fuel n ds).foldl (fun acc c => 10 * acc + (c.toNat - 48)) 0
      = ds.foldl (fun acc c => 10 * acc + (c.toNat - 48)) n := by
  induction fuel with
  | zero => intro n ds h; omega
  | succ fuel ih =>
    intro n ds h
    simp only [Nat.toDigitsCore]
    have hd := digitChar_value (n % 10) (Nat.mod_lt _ (by decide))
    by_cases h0 : n / 10 = 0
    · simp only [h0, if_true, List.foldl_cons, hd]
      have : n % 10 = n := by omega
      simp [this]
    · simp only [h0, if_false]
      rw [ih (n / 10) _ (by omega)]
      simp only [List.foldl_cons, hd]
      have : 10 * (n / 10) + n % 10 = n := by omega
      rw [this]

theorem readDecimal_toString (n : Nat) : readDecimal (toString n).data = n := by
  show readDecimal (Nat.repr n).data = n
  unfold Nat.repr Nat.toDigits readDecimal
  simp only [List.asString]
  rw [foldl_toDigitsCore (n + 1) n [] (by omega)]
  rfl

theorem toString_nat_inj {n m : Nat} (h : toString n = toString m) : n = m := by
  have := congrArg (fun s => readDecimal s.data) h
  simpa [readDecimal_toString] using this

theorem errorFile_attempt_inj (statusCode : Nat) {j j' : Nat}
    (h : errorFile statusCode j = errorFile statusCode j') : j = j' := by
  unfold errorFile at h
  have h1 := congrArg String.data h
  simp only [String.data_append, List.append_assoc] at h1
  have h2 := List.append_cancel_left h1
  have h3 := List.append_cancel_left h2
  have h4 := List.append_cancel_left h3
  have h5 := List.append_cancel_right h4
  exact toString_nat_inj (String.ext h5)

/-! ## Reaching an attempt -/

theorem makeRequest_reach (w : World) (url u : String) (n k : Nat)
    (hurl : w.urlParse url = .ok u) (hk : k ≤ n)
    (hprior : ∀ j, 1 ≤ j → j < 1 + k → (attemptBody w u n j).2 = none) :
    makeRequest w url n
      = ((attemptLoop w u n (n - k) (k + 1)).1,
          effectsThrough w u n k ++ (attemptLoop w u n (n - k) (k + 1)).2) := by
  unfold makeRequest
  rw [hurl]
  simp only
  have h := attemptLoop_skip w u n (n - k) k 1 (by omega) hprior
  rw [show n - k + k = n by omega] at h
  rw [h, Nat.add_comm 1 k]
  rfl

theorem attemptLoop_return (w : World) (u : String) (n fuel a : Nat) (effects : List Effect)
    (r : Except Err Bytes) (ha : a ≤ n) (hb : attemptBody w u n a = (effects, some r)) :
    attemptLoop w u n (fuel + 1) a = (r, effects) := by
  simp [attemptLoop, ha, hb]

theorem prior_continue (w : World) (u : String) (n k : Nat) (hk : k < n)
    (hprior : ∀ j, 1 ≤ j → j ≤ k → (w.attempts j).retryable = true) :
    ∀ j, 1 ≤ j → j < 1 + k → (attemptBody w u n j).2 = none :=
  fun j h1 h2 => attemptBody_retryable w u n j (hprior j h1 (by omega)) (by omega)

theorem makeRequest_return (w : World) (url u : String) (n k : Nat) (effects : List Effect)
    (r : Except Err Bytes) (hurl : w.urlParse url = .ok u) (hk : k < n)
    (hprior : ∀ j, 1 ≤ j → j ≤ k → (w.attempts j).retryable = true)
    (hb : attemptBody w u n (k + 1) = (effects, some r)) :
    makeRequest w url n = (r, effectsThrough w u n k ++ effects) := by
  rw [makeRequest_reach w url u n k hurl (by omega) (prior_continue w u n k hk hprior)]
  obtain ⟨f, hf⟩ : ∃ f, n - k = f + 1 := ⟨n - k - 1, by omega⟩
  rw [hf, attemptLoop_return w u n f (k + 1) effects r (by omega) hb]

theorem attemptBody_backoff (w : World) (u : String) (n j : Nat) (resp : Response)
    (hresp : w.attempts j = .response resp)
    (hs : resp.StatusCode = 429 ∨ resp.StatusCode = 403) :
    (attemptBody w u n j).2 = none := by
  unfold attemptBody
  rcases hs with h | h <;> simp [hresp, h]

/-! ## Claims on the retrying fetcher -/

/-- C3: when attempt `k + 1` of `makeRequest` (reached because the attempts
before it ended in a transport error, a 429 or a 403) receives a status other
than 200, 429 and 403, `makeRequest` fails with the HTTP-status error naming
that status; the request of that attempt is its last one although attempts
remain, and the response adds exactly one diagnostic file. -/
theorem C3_other_status_fails_at_once (w : World) (url u : String) (n k : Nat) (resp : Response)
    (hurl : w.urlParse url = .ok u) (hk : k < n)
    (hprior : ∀ j, 1 ≤ j → j ≤ k → (w.attempts j).retryable = true)
    (hresp : w.attempts (k + 1) = .response resp)
    (h200 : resp.StatusCode ≠ 200) (h429 : resp.StatusCode ≠ 429)
    (h403 : resp.StatusCode ≠ 403) :
    (makeRequest w url n).1 = .error (.status resp.StatusCode)
      ∧ (Err.status resp.StatusCode).message
          = "failed with status: " ++ toString resp.StatusCode
      ∧ (makeRequest w url n).2
          = effectsThrough w u n k
              ++ [.request u, .writeFile (errorFile resp.StatusCode (k + 1)) resp.Body.data]
      ∧ requestsIssued (makeRequest w url n).2 = k + 1
      ∧ artifacts (makeRequest w url n).2
          = expectedArtifacts w k ++ [(errorFile resp.StatusCode (k + 1), resp.Body.data)] := by
  have hb : attemptBody w u n (k + 1)
      = ([.request u, .writeFile (errorFile resp.StatusCode (k + 1)) resp.Body.data],
          some (.error (.status resp.StatusCode))) := by
    unfold attemptBody
    simp [hresp, h200, h429, h403]
  have hrun := makeRequest_return w url u n k _ _ hurl hk hprior hb
  rw [hrun]
  refine ⟨rfl, rfl, rfl, ?_, ?_⟩
  · simp only [requestsIssued_append,
      requestsIssued_effectsThrough w u n k (prior_continue w u n k hk hprior)]
    simp [requestsIssued]
  · simp only [artifacts_append, artifacts_effectsThrough]
    simp [artifacts]

/-- C3, at a sample: budget 5, a 429, a transport error, then a 404. -/
theorem C3_other_status_fails_at_once_witness :
    (makeRequest (sampleWorld sampleAttempts404) "u" 5).1 = .error (.status 404)
      ∧ requestsIssued (makeRequest (sampleWorld sampleAttempts404) "u" 5).2 = 3
      ∧ artifacts (makeRequest (sampleWorld sampleAttempts404) "u" 5).2
          = expectedArtifacts (sampleWorld sampleAttempts404) 2
              ++ [(errorFile 404 3, "not found")] :=
  have h := C3_other_status_fails_at_once (sampleWorld sampleAttempts404) "u" "u" 5 2
    { StatusCode := 404, ContentEncoding := "", Body := { data := "not found", err := none } }
    rfl (by decide)
    (by intro j h1 h2; interval_cases j <;> rfl)
    rfl (by decide) (by decide) (by decide)
  ⟨h.1, h.2.2.2.1, h.2.2.2.2⟩

/-- C4: with any budget `n` (so with every `n ≥ 1`), when every attempt receives status 429 (or every
attempt receives 403), `makeRequest` issues exactly `n` requests, fails with the
attempts-exhausted error, whose text is "all n attempts failed", and writes
exactly `n` diagnostic files, the one of attempt `j` named by the status code
and `j`, with pairwise distinct names. -/
theorem C4_all_rate_limited_exhausts (w : World) (url u : String) (n s : Nat)
    (hurl : w.urlParse url = .ok u) (hs : s = 429 ∨ s = 403)
    (hall : ∀ j, 1 ≤ j → j ≤ n → ∃ resp, w.attempts j = .response resp ∧ resp.StatusCode = s) :
    (makeRequest w url n).1 = .error (.exhausted n)
      ∧ (Err.exhausted n).message = "all " ++ toString n ++ " attempts failed"
      ∧ requestsIssued (makeRequest w url n).2 = n
      ∧ artifacts (makeRequest w url n).2 = expectedArtifacts w n
      ∧ (artifacts (makeRequest w url n).2).length = n
      ∧ (artifacts (makeRequest w url n).2).map Prod.fst = (List.range' 1 n).map (errorFile s)
      ∧ ((artifacts (makeRequest w url n).2).map Prod.fst).Nodup := by
  have hcont : ∀ j, 1 ≤ j → j < 1 + n → (attemptBody w u n j).2 = none := by
    intro j h1 h2
    obtain ⟨resp, hresp, hst⟩ := hall j h1 (by omega)
    exact attemptBody_backoff w u n j resp hresp (by rw [hst]; exact hs)
  have hrun := makeRequest_reach w url u n n hurl (Nat.le_refl n) hcont
  simp only [Nat.sub_self, attemptLoop, List.append_nil] at hrun
  have hnames : (expectedArtifacts w n).map Prod.fst = (List.range' 1 n).map (errorFile s) := by
    unfold expectedArtifacts
    rw [List.map_filterMap]
    rw [← List.filterMap_eq_map]
    apply List.filterMap_congr
    intro j hj
    rw [List.mem_range'_1] at hj
    obtain ⟨resp, hresp, hst⟩ := hall j hj.1 (by omega)
    have h200 : s ≠ 200 := by rcases hs with h | h <;> omega
    simp [hresp, h200, hst]
  have hart : artifacts (makeRequest w url n).2 = expectedArtifacts w n := by
    rw [hrun]; exact artifacts_effectsThrough w u n n
  refine ⟨by rw [hrun], rfl, ?_, hart, ?_, ?_, ?_⟩
  · rw [hrun]; exact requestsIssued_effectsThrough w u n n hcont
  · have := congrArg List.length hnames
    rw [hart]
    simpa using this
  · rw [hart, hnames]
  · rw [hart, hnames]
    exact (List.nodup_range' 1 n).map (fun a b h => errorFile_attempt_inj s h)

/-- C4, at a sample: budget 3 and a 429 on every attempt. -/
theorem C4_all_rate_limited_exhausts_witness :
    (makeRequest (sampleWorld (fun _ => plainResponse 429 "slow down")) "u" 3).1
        = .error (.exhausted 3)
      ∧ requestsIssued (makeRequest (sampleWorld (fun _ => plainResponse 429 "slow down")) "u" 3).2
          = 3
      ∧ (artifacts (makeRequest (sampleWorld (fun _ => plainResponse 429 "slow down")) "u" 3).2).length
          = 3 :=
  have h := C4_all_rate_limited_exhausts (sampleWorld (fun _ => plainResponse 429 "slow down"))
    "u" "u" 3 429 rfl (Or.inl rfl)
    (fun _ _ _ => ⟨_, rfl, rfl⟩)
  ⟨h.1, h.2.2.1, h.2.2.2.2.1⟩

/-- C5: when the attempts `1 .. k` of `makeRequest` each end in a transport
error, a 429 or a 403 and attempt `k + 1` (within the budget) receives status
200, the loop ends there: `makeRequest` issues exactly `k + 1` requests and the
request of attempt `k + 1` is its last effect. When the body is readable,
`makeRequest` succeeds with exactly that body: for a response that is not
gzip-encoded and whose body is read without error, the bytes of the body; for
a gzip-encoded response whose gzip reader opens and reads without error, the
decompressed bytes. -/
theorem C5_first_ok_ends_loop (w : World) (url u : String) (n k : Nat) (resp : Response)
    (hurl : w.urlParse url = .ok u) (hk : k < n)
    (hprior : ∀ j, 1 ≤ j → j ≤ k → (w.attempts j).retryable = true)
    (hresp : w.attempts (k + 1) = .response resp)
    (h200 : resp.StatusCode = 200) :
    (makeRequest w url n).2 = effectsThrough w u n k ++ [.request u]
      ∧ requestsIssued (makeRequest w url n).2 = k + 1
      ∧ (resp.ContentEncoding ≠ "gzip" → resp.Body.err = none →
          (makeRequest w url n).1 = .ok resp.Body.data)
      ∧ (∀ gzipReader : Stream, resp.ContentEncoding = "gzip" →
          w.gzipNewReader resp.Body = .ok gzipReader → gzipReader.err = none →
          (makeRequest w url n).1 = .ok gzipReader.data) := by
  have hb : attemptBody w u n (k + 1)
      = ([.request u], some (match readResponseBody w resp with
          | .error e => .error (.readBody e)
          | .ok body => .ok body)) := by
    unfold attemptBody
    simp only [hresp, h200, if_true]
    cases readResponseBody w resp <;> rfl
  have hrun := makeRequest_return w url u n k _ _ hurl hk hprior hb
  rw [hrun]
  refine ⟨rfl, ?_, ?_, ?_⟩
  · simp only [requestsIssued_append,
      requestsIssued_effectsThrough w u n k (prior_continue w u n k hk hprior)]
    simp [requestsIssued]
  · intro hplain herr
    simp [readResponseBody, hplain, herr]
  · intro gzipReader hgzip hopen herr
    simp [readResponseBody, hgzip, hopen, herr]

/-- C5, at a sample: budget 5, a transport error, a 403, then a gzip-encoded
200 whose body the sample gzip reader decompresses. -/
theorem C5_first_ok_ends_loop_witness :
    (makeRequest (sampleGzipWorld sampleAttemptsGzip) "u" 5).1 = .ok "unzipped:zipped"
      ∧ requestsIssued (makeRequest (sampleGzipWorld sampleAttemptsGzip) "u" 5).2 = 3 :=
  have h := C5_first_ok_ends_loop (sampleGzipWorld sampleAttemptsGzip) "u" "u" 5 2
    { StatusCode := 200, ContentEncoding := "gzip", Body := { data := "zipped", err := none } }
    rfl (by decide)
    (by intro j h1 h2; interval_cases j <;> rfl)
    rfl rfl
  ⟨h.2.2.2 { data := "unzipped:zipped", err := none } rfl rfl rfl, h.2.1⟩

/-- C6: when attempt `k + 1` of `makeRequest` (reached because the attempts
before it ended in a transport error, a 429 or a 403) meets a transport-level
error, then before the last attempt (`k + 1 < n`) `makeRequest` sleeps 3 to 5
seconds and runs the pass of attempt `k + 2`, and on the last attempt
(`k + 1 = n`) it fails with that network error, which is not the
attempts-exhausted error, the request being its last effect; in both cases the
pass of attempt `k + 1` writes no diagnostic file. -/
theorem C6_transport_error_retries_then_fails (w : World) (url u e : String) (n k : Nat)
    (hurl : w.urlParse url = .ok u) (hk : k < n)
    (hprior : ∀ j, 1 ≤ j → j ≤ k → (w.attempts j).retryable = true)
    (herr : w.attempts (k + 1) = .transportError e) :
    (k + 1 < n →
        (∃ d rest, 3 ≤ d ∧ d ≤ 5
          ∧ (makeRequest w url n).2
              = effectsThrough w u n k ++ [.request u, .sleep d]
                  ++ (attemptBody w u n (k + 2)).1 ++ rest)
        ∧ artifacts (effectsThrough w u n (k + 1)) = artifacts (effectsThrough w u n k))
      ∧ (k + 1 = n →
          (makeRequest w url n).1 = .error (.network e)
            ∧ Err.network e ≠ Err.exhausted n
            ∧ (makeRequest w url n).2 = effectsThrough w u n k ++ [.request u]
            ∧ artifacts (makeRequest w url n).2 = expectedArtifacts w k)
      ∧ artifacts (attemptBody w u n (k + 1)).1 = [] := by
  refine ⟨?_, ?_, ?_⟩
  · intro hlt
    have hprior' : ∀ j, 1 ≤ j → j ≤ k + 1 → (w.attempts j).retryable = true := by
      intro j h1 h2
      by_cases hj : j ≤ k
      · exact hprior j h1 hj
      · have : j = k + 1 := by omega
        rw [this, herr]; rfl
    have hbody : (attemptBody w u n (k + 1)).1
        = [.request u, .sleep (3 + randIntn (w.jitter (k + 1)) 3)] := by
      unfold attemptBody
      simp [herr, hlt]
    have hthrough : effectsThrough w u n (k + 1)
        = effectsThrough w u n k ++ [.request u, .sleep (3 + randIntn (w.jitter (k + 1)) 3)] := by
      unfold effectsThrough
      rw [List.range'_concat, List.flatMap_append]
      simp [hbody, Nat.add_comm]
    have hrun := makeRequest_reach w url u n (k + 1) hurl (by omega)
      (prior_continue w u n (k + 1) hlt hprior')
    obtain ⟨f, hf⟩ : ∃ f, n - (k + 1) = f + 1 := ⟨n - (k + 1) - 1, by omega⟩
    refine ⟨⟨3 + randIntn (w.jitter (k + 1)) 3, ?_, by omega, ?_, ?_⟩, ?_⟩
    · exact (match (attemptBody w u n (k + 2)).2 with
        | none => (attemptLoop w u n f (k + 3)).2
        | some _ => [])
    · unfold randIntn
      have := Nat.mod_lt (w.jitter (k + 1)) (show 0 < 3 by decide)
      omega
    · rw [hrun, hf, hthrough]
      have hle : k + 1 + 1 ≤ n := by omega
      simp only [attemptLoop, hle, if_true]
      generalize attemptBody w u n (k + 1 + 1) = b
      obtain ⟨effects, r⟩ := b
      cases r with
      | none => simp
      | some r => simp
    · rw [hthrough, artifacts_append]
      simp [artifacts]
  · intro hlast
    have hb : attemptBody w u n (k + 1) = ([.request u], some (.error (.network e))) := by
      unfold attemptBody
      have : ¬ k + 1 < n := by omega
      simp [herr, this]
    have hrun := makeRequest_return w url u n k _ _ hurl hk hprior hb
    rw [hrun]
    refine ⟨rfl, by simp, rfl, ?_⟩
    simp only [artifacts_append, artifacts_effectsThrough]
    simp [artifacts]
  · rw [artifacts_attemptBody, herr]

/-- C6, at a sample: budget 3, a 429, then transport errors; the third attempt
is the last one and fails with the network error. -/
theorem C6_transport_error_retries_then_fails_witness :
    (makeRequest (sampleWorld sampleAttemptsNetwork) "u" 3).1
        = .error (.network "connection refused")
      ∧ artifacts (makeRequest (sampleWorld sampleAttemptsNetwork) "u" 3).2
          = expectedArtifacts (sampleWorld sampleAttemptsNetwork) 2 :=
  have h := (C6_transport_error_retries_then_fails (sampleWorld sampleAttemptsNetwork)
    "u" "u" "connection refused" 3 2 rfl (by decide)
    (by intro j h1 h2; interval_cases j <;> rfl)
    rfl).2.1 rfl
  ⟨h.1, h.2.2.2⟩

/-! ## Lemmas on the spreadsheet model -/

theorem setAt_eq_take {α : Type} (d : α) (f : α → α) :
    ∀ (l : List α) (i : Nat), i ≤ l.length →
      setAt d f l i = l.take i ++ f (l.getD i d) :: l.drop (i + 1) := by
  intro l
  induction l with
  | nil => intro i h; cases i with
    | zero => simp [setAt]
    | succ i => simp at h
  | cons x xs ih =>
    intro i h
    cases i with
    | zero => simp [setAt]
    | succ i =>
      simp only [setAt, List.take_succ_cons, List.cons_append, List.drop_succ_cons,
        List.getD_cons_succ]
      rw [ih i (by simpa using h)]

theorem setAt_getD_ne {α : Type} (d : α) (f : α → α) :
    ∀ (l : List α) (i j : Nat), j ≠ i → (setAt d f l i).getD j d = l.getD j d := by
  intro l
  induction l with
  | nil =>
    intro i
    induction i with
    | zero => intro j hj; cases j with
      | zero => exact absurd rfl hj
      | succ j => simp [setAt]
    | succ i ihi =>
      intro j hj
      cases j with
      | zero => simp [setAt]
      | succ j =>
        simp only [setAt, List.getD_cons_succ]
        rw [ihi j (by omega)]
        simp
  | cons x xs ih =>
    intro i j hj
    cases i with
    | zero => cases j with
      | zero => exact absurd rfl hj
      | succ j => simp [setAt]
    | succ i => cases j with
      | zero => simp [setAt]
      | succ j =>
        simp only [setAt, List.getD_cons_succ]
        exact ih i j (by omega)

theorem setAt_setAt {α : Type} (d : α) (f g : α → α) :
    ∀ (l : List α) (i : Nat), setAt d f (setAt d g l i) i = setAt d (fun x => f (g x)) l i := by
  intro l
  induction l with
  | nil =>
    intro i
    induction i with
    | zero => simp [setAt]
    | succ i ihi => simp only [setAt]; rw [ihi]
  | cons x xs ih =>
    intro i
    cases i with
    | zero => simp [setAt]
    | succ i => simp only [setAt]; rw [ih]

theorem rdropWhile_eq_take {α : Type} (p : α → Bool) (l : List α) :
    l.rdropWhile p = l.take (l.rdropWhile p).length :=
  List.prefix_iff_eq_take.mp (List.rdropWhile_prefix p l)

theorem rdropWhile_drop_all {α : Type} (p : α → Bool) (l : List α) :
    ∀ x ∈ l.drop (l.rdropWhile p).length, p x = true := by
  induction l using List.reverseRecOn with
  | nil => simp
  | append_singleton l a ih =>
    by_cases ha : p a = true
    · rw [List.rdropWhile_concat_pos _ _ _ ha]
      have hle : (l.rdropWhile p).length ≤ l.length := (List.rdropWhile_prefix p l).length_le
      rw [List.drop_append_of_le_length hle]
      intro x hx
      rcases List.mem_append.mp hx with h | h
      · exact ih x h
      · simp at h; rw [h]; exact ha
    · rw [List.rdropWhile_concat_neg _ _ _ ha]
      simp

theorem rdropWhile_append_stop {α : Type} (p : α → Bool) (A : List α) (y : α) :
    ∀ (B : List α), (∀ x ∈ B, p x = true) → p y ≠ true →
      (A ++ y :: B).rdropWhile p = A ++ [y] := by
  intro B
  induction B using List.reverseRecOn with
  | nil =>
    intro _ hy
    exact List.rdropWhile_concat_neg p A y hy
  | append_singleton B b ih =>
    intro hB hy
    have hb : p b = true := hB b (by simp)
    have : A ++ y :: (B ++ [b]) = (A ++ y :: B) ++ [b] := by simp
    rw [this, List.rdropWhile_concat_pos _ _ _ hb]
    exact ih (fun x hx => hB x (by simp [hx])) hy


theorem setAt_append_length {α : Type} (d v : α) (rest : List α) :
    ∀ (pre : List α), setAt d (fun _ => v) (pre ++ rest) pre.length = pre ++ v :: rest.tail := by
  intro pre
  induction pre with
  | nil => cases rest <;> simp [setAt]
  | cons x xs ih =>
    show x :: setAt d (fun _ => v) (xs ++ rest) xs.length = _
    rw [ih]; rfl

theorem rowFold_enumFrom : ∀ (vs pre rest : List String),
    rowFold (vs.enumFrom pre.length) (pre ++ rest) = pre ++ vs ++ rest.drop vs.length := by
  intro vs
  induction vs with
  | nil => intro pre rest; simp [rowFold]
  | cons v vs ih =>
    intro pre rest
    have h := ih (pre ++ [v]) rest.tail
    simp only [List.length_append, List.length_singleton, List.append_assoc,
      List.singleton_append] at h
    simp only [rowFold, List.enumFrom_cons, List.foldl_cons, setAt_append_length] at h ⊢
    rw [h]
    cases rest <;> simp

theorem writeCells_eq (s : Sheet) (row : Nat) (hrow : row ≠ 0) (c : Nat × String)
    (cells : List (Nat × String)) :
    writeCells s row (c :: cells) = setAt [] (rowFold (c :: cells)) s (row - 1) := by
  have key : ∀ (cs : List (Nat × String)) (g : List String → List String),
      cs.foldl (fun s c => Sheet.setCell s c.1 row c.2) (setAt [] g s (row - 1))
        = setAt [] (fun r => rowFold cs (g r)) s (row - 1) := by
    intro cs
    induction cs with
    | nil => intro g; rfl
    | cons c cs ih =>
      intro g
      have hstep : Sheet.setCell (setAt [] g s (row - 1)) c.1 row c.2
          = setAt [] (fun r => setAt "" (fun _ => c.2) (g r) c.1) s (row - 1) := by
        simp only [Sheet.setCell, hrow, if_false, setAt_setAt]
      rw [List.foldl_cons, hstep, ih]
      rfl
  unfold writeCells
  simp only [List.foldl_cons]
  have h0 : Sheet.setCell s c.1 row c.2
      = setAt [] (fun r => setAt "" (fun _ => c.2) r c.1) s (row - 1) := by
    simp [Sheet.setCell, hrow]
  rw [h0, key]
  rfl

theorem rdropWhile_append_all {α : Type} (p : α → Bool) (A : List α) :
    ∀ (B : List α), (∀ x ∈ B, p x = true) → (A ++ B).rdropWhile p = A.rdropWhile p := by
  intro B
  induction B using List.reverseRecOn with
  | nil => intro _; simp
  | append_singleton B b ih =>
    intro hB
    have hb : p b = true := hB b (by simp)
    rw [← List.append_assoc, List.rdropWhile_concat_pos _ _ _ hb]
    exact ih (fun x hx => hB x (by simp [hx]))

theorem trimRow_blank {r : List String} (h : (trimRow r).isEmpty = true) :
    ∀ x ∈ r, (x == "") = true := by
  have hnil : trimRow r = [] := by simpa using h
  have := rdropWhile_drop_all (fun c : String => c == "") r
  unfold trimRow at hnil
  rw [hnil] at this
  simpa using this

theorem getRows_setAt (readBack : String → String) (s : Sheet)
    (F : List String → List String) (vs : List String) (hvs : vs ≠ [])
    (hF : ∀ r, readRow readBack r = [] → readRow readBack (F r) = vs) :
    Sheet.getRows readBack (setAt [] F s (Sheet.getRows readBack s).length)
      = Sheet.getRows readBack s ++ [vs] := by
  have hle : (Sheet.getRows readBack s).length ≤ s.length := by
    have := (List.rdropWhile_prefix (fun r : List String => r.isEmpty)
      (s.map (readRow readBack))).length_le
    simpa [Sheet.getRows] using this
  have hall := rdropWhile_drop_all (fun r : List String => r.isEmpty) (s.map (readRow readBack))
  have htake := rdropWhile_eq_take (fun r : List String => r.isEmpty) (s.map (readRow readBack))
  rw [setAt_eq_take [] F s _ hle]
  have hx : readRow readBack (s.getD (Sheet.getRows readBack s).length []) = [] := by
    by_cases hlt : (Sheet.getRows readBack s).length < s.length
    · have hlt' : (Sheet.getRows readBack s).length < (s.map (readRow readBack)).length := by
        simpa using hlt
      have hmem : (s.map (readRow readBack))[(Sheet.getRows readBack s).length]
          ∈ List.drop ((s.map (readRow readBack)).rdropWhile (fun r => r.isEmpty)).length
              (s.map (readRow readBack)) := by
        apply List.mem_drop_iff_getElem.mpr
        exact ⟨0, by simpa [Sheet.getRows] using hlt, by simp [Sheet.getRows]⟩
      have hempty := hall _ hmem
      rw [List.getD_eq_getElem _ _ hlt]
      have : readRow readBack (s[(Sheet.getRows readBack s).length])
          = (s.map (readRow readBack))[(Sheet.getRows readBack s).length] := by
        simp
      rw [this]
      simpa using hempty
    · rw [List.getD_eq_default _ _ (by omega)]
      rfl
  show List.rdropWhile _ (List.map (readRow readBack) _) = _
  rw [List.map_append, List.map_cons, hF _ hx, List.map_take, List.map_drop]
  have hA : List.take (Sheet.getRows readBack s).length (s.map (readRow readBack))
      = Sheet.getRows readBack s := htake.symm
  rw [hA]
  apply rdropWhile_append_stop
  · intro x hx
    apply hall
    have : List.drop ((Sheet.getRows readBack s).length + 1) (s.map (readRow readBack))
        = List.drop 1 (List.drop (Sheet.getRows readBack s).length
            (s.map (readRow readBack))) := by
      rw [List.drop_drop, Nat.add_comm]
    rw [this] at hx
    exact List.mem_of_mem_drop hx
  · cases vs with
    | nil => exact absurd rfl hvs
    | cons v vs => simp

theorem trimRow_record (vs : List String) (last : String) (r : List String)
    (hlast : last ≠ "") (hr : ∀ x ∈ r, (x == "") = true) :
    trimRow ((vs ++ [last]) ++ r) = vs ++ [last] := by
  unfold trimRow
  rw [rdropWhile_append_all _ _ r hr]
  exact List.rdropWhile_concat_neg _ vs last (by simpa using hlast)

theorem excelCells_eq (p : ProductData) : excelCells p = (csvRecord p).enumFrom 0 := rfl

theorem rowFold_excelCells (p : ProductData) (r : List String) :
    rowFold (excelCells p) r = csvRecord p ++ r.drop 17 := by
  have h := rowFold_enumFrom (csvRecord p) [] r
  simp only [List.length_nil, List.nil_append] at h
  rw [excelCells_eq, h]
  rfl

theorem readCell_ne (readBack : String → String) (v : String) (hv : v ≠ "")
    (h : readBack v ≠ "") : readCell readBack v ≠ "" := by
  simp [readCell, hv, h]

theorem getRows_writeCells (readBack : String → String) (s : Sheet) (p : ProductData)
    (hp : readCell readBack p.ReviewCount ≠ "") :
    Sheet.getRows readBack
        (writeCells s ((s.getRows readBack).length + 1) (excelCells p))
      = s.getRows readBack ++ [(csvRecord p).map (readCell readBack)] := by
  have hw := writeCells_eq s ((s.getRows readBack).length + 1) (by omega) (0, p.ID)
    (excelCells p).tail
  have hc : (0, p.ID) :: (excelCells p).tail = excelCells p := rfl
  rw [hc] at hw
  rw [hw, Nat.add_sub_cancel]
  apply getRows_setAt readBack s _ ((csvRecord p).map (readCell readBack))
    (by simp [csvRecord])
  intro r hr
  rw [rowFold_excelCells]
  have hblank : ∀ x ∈ r.map (readCell readBack), (x == "") = true :=
    trimRow_blank (by unfold readRow at hr; rw [hr]; rfl)
  have hrec : csvRecord p = (csvRecord p).dropLast ++ [p.ReviewCount] := rfl
  unfold readRow
  rw [List.map_append]
  conv_lhs => rw [hrec]
  rw [List.map_append, List.map_singleton]
  have hgoal := trimRow_record ((csvRecord p).dropLast.map (readCell readBack))
    (readCell readBack p.ReviewCount) ((r.drop 17).map (readCell readBack)) hp
    (fun x hx => hblank x (by
      rw [List.mem_map] at hx ⊢
      obtain ⟨y, hy, hyx⟩ := hx
      exact ⟨y, List.mem_of_mem_drop hy, hyx⟩))
  rw [hgoal]
  conv_rhs => rw [hrec]
  rw [List.map_append, List.map_singleton]

theorem getCell_writeCells (readBack : String → String) (s : Sheet) (p : ProductData)
    (row col target : Nat) (htarget : target ≠ 0) (hrow : row ≠ 0) (hne : row ≠ target) :
    Sheet.getCell readBack (writeCells s target (excelCells p)) col row
      = Sheet.getCell readBack s col row := by
  have hw := writeCells_eq s target htarget (0, p.ID) (excelCells p).tail
  have hc : (0, p.ID) :: (excelCells p).tail = excelCells p := rfl
  rw [hc] at hw
  unfold Sheet.getCell
  rw [hw, setAt_getD_ne [] _ s (target - 1) (row - 1) (by omega)]

theorem getProductDetails_ok (unmarshal : Bytes → Except String ApiData) (w : World)
    (id : String) (p : ProductData)
    (h : (getProductDetails unmarshal w id).1 = .ok p) : ∃ data, p = buildProduct data := by
  unfold getProductDetails at h
  simp only at h
  split at h
  · simp at h
  · split at h
    · simp at h
    · next data _ =>
      simp only at h
      injection h with h
      exact ⟨data, h.symm⟩

theorem reviewCount_of_fetched (unmarshal : Bytes → Except String ApiData) (w : World)
    (id : String) (p : ProductData) (readBack : String → String)
    (hfetch : (getProductDetails unmarshal w id).1 = .ok p) (hread : readBack "N/A" ≠ "") :
    readCell readBack p.ReviewCount ≠ "" := by
  obtain ⟨data, hdata⟩ := getProductDetails_ok unmarshal w id p hfetch
  rw [hdata]
  show readCell readBack "N/A" ≠ ""
  exact readCell_ne readBack "N/A" (by decide) hread

theorem processID_excel (unmarshal : Bytes → Except String ApiData)
    (readBack : String → String) (iw : IdWorld) (id : String) (st : State) (p : ProductData)
    (hfetch : (getProductDetails unmarshal iw.fetch id).1 = .ok p) :
    (processID unmarshal readBack iw id st).excel
      = (writeProductToExcel st.excel (getNextExcelRow readBack st.excel) p iw.save).1 := by
  unfold processID
  generalize getProductDetails unmarshal iw.fetch id = res at hfetch
  obtain ⟨r, fetched⟩ := res
  simp only at hfetch
  subst hfetch
  simp only
  cases hsave : iw.save with
  | some e => simp [writeProductToExcel]
  | none =>
    simp only [writeProductToExcel]
    cases iw.csvWrite <;> cases iw.csvFlush <;> simp [writeProductToCSV]

theorem processID_sheet (unmarshal : Bytes → Except String ApiData)
    (readBack : String → String) (iw : IdWorld) (id : String) (st : State) (s : Sheet)
    (p : ProductData) (hsheet : st.excel.sheet = some s)
    (hfetch : (getProductDetails unmarshal iw.fetch id).1 = .ok p) :
    (processID unmarshal readBack iw id st).excel.sheet
        = some (writeCells s ((s.getRows readBack).length + 1) (excelCells p))
      ∧ (iw.save = none → (processID unmarshal readBack iw id st).excel.disk
          = some (writeCells s ((s.getRows readBack).length + 1) (excelCells p)))
      ∧ (iw.save ≠ none → (processID unmarshal readBack iw id st).excel.disk
          = st.excel.disk) := by
  have hrow : getNextExcelRow readBack st.excel = (s.getRows readBack).length + 1 := by
    simp [getNextExcelRow, hsheet]
  rw [processID_excel unmarshal readBack iw id st p hfetch, hrow]
  refine ⟨?_, ?_, ?_⟩
  · cases iw.save <;> simp [writeProductToExcel, hsheet]
  · intro hsave
    rw [hsave]
    simp [writeProductToExcel, hsheet]
  · intro hsave
    cases h : iw.save with
    | none => exact absurd h hsave
    | some e => simp [writeProductToExcel]

theorem processID_csv_unchanged (unmarshal : Bytes → Except String ApiData)
    (readBack : String → String) (iw : IdWorld) (id : String) (st : State)
    (h : iw.save ≠ none ∨ iw.csvWrite ≠ none ∨ iw.csvFlush ≠ none) :
    (processID unmarshal readBack iw id st).csv = st.csv := by
  unfold processID
  generalize getProductDetails unmarshal iw.fetch id = res
  obtain ⟨r, fetched⟩ := res
  cases r with
  | error e => rfl
  | ok p =>
    simp only
    cases hsave : iw.save with
    | some e => simp [writeProductToExcel]
    | none =>
      cases hw : iw.csvWrite with
      | some e => simp [writeProductToExcel, writeProductToCSV]
      | none =>
        cases hf : iw.csvFlush with
        | some e => simp [writeProductToExcel, writeProductToCSV]
        | none => simp [hsave, hw, hf] at h

/-! ## Claims on the sinks and the main loop -/

/-- C7: for a workbook whose sheet "Products" holds `N` rows (as `GetRows`
returns them), and a spreadsheet library that reads the text "N/A" back as a
non-empty text, the main loop computes the target row `N + 1` before the write
and sets the seventeen cells of the fetched record there: afterwards `GetRows`
returns the old rows followed by one row, the seventeen fields of the record as
the library reads them back, so `N + 1` rows; no cell of the rows `1 .. N` (the
header row among them) reads differently; and after a successful save the file
holds the same sheet. -/
theorem C7_excel_appends_at_next_row (unmarshal : Bytes → Except String ApiData)
    (readBack : String → String) (iw : IdWorld) (id : String) (st : State) (s : Sheet)
    (p : ProductData)
    (hsheet : st.excel.sheet = some s)
    (hfetch : (getProductDetails unmarshal iw.fetch id).1 = .ok p)
    (hread : readBack "N/A" ≠ "") :
    getNextExcelRow readBack st.excel = (s.getRows readBack).length + 1
      ∧ (processID unmarshal readBack iw id st).excel
          = (writeProductToExcel st.excel (getNextExcelRow readBack st.excel) p iw.save).1
      ∧ ∃ s', (processID unmarshal readBack iw id st).excel.sheet = some s'
          ∧ s' = writeCells s ((s.getRows readBack).length + 1) (excelCells p)
          ∧ s'.getRows readBack
              = s.getRows readBack ++ [(csvRecord p).map (readCell readBack)]
          ∧ (s'.getRows readBack).length = (s.getRows readBack).length + 1
          ∧ (∀ col row, 1 ≤ row → row ≤ (s.getRows readBack).length →
              s'.getCell readBack col row = s.getCell readBack col row)
          ∧ (∀ col row, 1 ≤ row → row ≤ (s.getRows readBack).length →
              (s'.getD (row - 1) []).getD col "" = (s.getD (row - 1) []).getD col "")
          ∧ (iw.save = none → (processID unmarshal readBack iw id st).excel.disk = some s') := by
  have hreview := reviewCount_of_fetched unmarshal iw.fetch id p readBack hfetch hread
  have hrow : getNextExcelRow readBack st.excel = (s.getRows readBack).length + 1 := by
    simp [getNextExcelRow, hsheet]
  obtain ⟨h1, h2, _⟩ := processID_sheet unmarshal readBack iw id st s p hsheet hfetch
  refine ⟨hrow, processID_excel unmarshal readBack iw id st p hfetch,
    writeCells s ((s.getRows readBack).length + 1) (excelCells p), h1, rfl, ?_, ?_, ?_, ?_, h2⟩
  · exact getRows_writeCells readBack s p hreview
  · rw [getRows_writeCells readBack s p hreview]; simp
  · intro col row hr1 hr2
    exact getCell_writeCells readBack s p row col _ (by omega) (by omega) (by omega)
  · intro col row hr1 hr2
    have hw := writeCells_eq s ((s.getRows readBack).length + 1) (by omega) (0, p.ID)
      (excelCells p).tail
    have hc : (0, p.ID) :: (excelCells p).tail = excelCells p := rfl
    rw [hc] at hw
    rw [hw, setAt_getD_ne [] _ s _ (row - 1) (by omega)]

/-- C7, at a sample: a sheet holding the header row, one fetched record, a
library that cuts a value to 32767 characters. -/
theorem C7_excel_appends_at_next_row_witness :
    getNextExcelRow sampleReadBack sampleState.excel = 2
      ∧ ∃ s', (processID sampleUnmarshal sampleReadBack
                (sampleIdWorld (fun _ => plainResponse 200 "payload") none none)
                "AB1234" sampleState).excel.sheet = some s'
          ∧ (s'.getRows sampleReadBack).length = 2 :=
  have h := C7_excel_appends_at_next_row sampleUnmarshal sampleReadBack
    (sampleIdWorld (fun _ => plainResponse 200 "payload") none none) "AB1234" sampleState
    [["ID", "URL"]] (buildProduct
      { ID := "AB1234", Name := "Shoe", ImageURLs := [], Color := "black", Category := "shoes",
        Functions := [], ProductFit := [], BaseMaterial := [], IsOrderable := true,
        CurrentPrice := "100", Text := "", Usps := [], VariationSizes := [],
        SearchColors := [] }) rfl rfl (by decide)
  ⟨h.1, h.2.2.elim (fun s' hs => ⟨s', hs.1, hs.2.2.2.1⟩)⟩

/-- C8 as stated fails: with a fetched record, a working delimited file and a
failing `f.Save()`, the record is not appended to the delimited file. The input
is the identifier "AB1234", the sample header-only workbook, a 200 response and
the save error "disk full". -/
theorem C8_counterexample :
    ¬ (∀ (unmarshal : Bytes → Except String ApiData) (readBack : String → String)
        (iw : IdWorld) (id : String) (st : State) (p : ProductData),
        (getProductDetails unmarshal iw.fetch id).1 = .ok p →
        (writeProductToExcel st.excel (getNextExcelRow readBack st.excel) p iw.save).2 ≠ none →
        iw.csvWrite = none → iw.csvFlush = none →
        csvRecord p ∈ (processID unmarshal readBack iw id st).csv) := by
  intro h
  have h1 := h sampleUnmarshal sampleReadBack
    (sampleIdWorld (fun _ => plainResponse 200 "payload") (some "disk full") none)
    "AB1234" sampleState _ rfl (by simp [writeProductToExcel, sampleIdWorld]) rfl rfl
  have h2 : (processID sampleUnmarshal sampleReadBack
      (sampleIdWorld (fun _ => plainResponse 200 "payload") (some "disk full") none)
      "AB1234" sampleState).csv = [] := rfl
  rw [h2] at h1
  exact List.not_mem_nil _ h1

/-- C8, amended: for a fetched record, a workbook with the sheet "Products" and
a spreadsheet library that reads "N/A" back as a non-empty text. When the
spreadsheet write fails (the save fails), the pass ends before the
delimited-file write: the delimited file is left as it was, the saved
spreadsheet file is left as it was, and the cells of the record stay set in the
open workbook, whose next target row is the one after them; the next pass whose
save succeeds writes that row to the file together with its own. When the
spreadsheet write succeeds and the delimited-file write fails, the spreadsheet
row stays written, in the open workbook and in the saved file, and the
delimited file is left as it was. In every case the loop goes on with the next
identifier. -/
theorem C8_write_failure_skips_record (unmarshal : Bytes → Except String ApiData)
    (readBack : String → String) (ws : Nat → IdWorld) (id : String) (rest : List String)
    (i : Nat) (st : State) (s : Sheet) (p : ProductData)
    (hsheet : st.excel.sheet = some s)
    (hfetch : (getProductDetails unmarshal (ws i).fetch id).1 = .ok p)
    (hread : readBack "N/A" ≠ "") :
    ((writeProductToExcel st.excel (getNextExcelRow readBack st.excel) p (ws i).save).2 ≠ none →
        (processID unmarshal readBack (ws i) id st).csv = st.csv
          ∧ (processID unmarshal readBack (ws i) id st).excel.disk = st.excel.disk
          ∧ (∃ s', (processID unmarshal readBack (ws i) id st).excel.sheet = some s'
              ∧ s'.getRows readBack
                  = s.getRows readBack ++ [(csvRecord p).map (readCell readBack)])
          ∧ getNextExcelRow readBack (processID unmarshal readBack (ws i) id st).excel
              = (s.getRows readBack).length + 2
          ∧ (∀ (iw2 : IdWorld) (id2 : String) (p2 : ProductData),
              (getProductDetails unmarshal iw2.fetch id2).1 = .ok p2 → iw2.save = none →
              ∃ s2, (processID unmarshal readBack iw2 id2
                      (processID unmarshal readBack (ws i) id st)).excel.disk = some s2
                ∧ s2.getRows readBack
                    = s.getRows readBack ++ [(csvRecord p).map (readCell readBack),
                        (csvRecord p2).map (readCell readBack)]))
      ∧ ((writeProductToExcel st.excel (getNextExcelRow readBack st.excel) p (ws i).save).2 = none →
          (writeProductToCSV st.csv p (ws i).csvWrite (ws i).csvFlush).2 ≠ none →
          (processID unmarshal readBack (ws i) id st).csv = st.csv
            ∧ ∃ s', (processID unmarshal readBack (ws i) id st).excel.sheet = some s'
                ∧ (processID unmarshal readBack (ws i) id st).excel.disk = some s'
                ∧ s'.getRows readBack
                    = s.getRows readBack ++ [(csvRecord p).map (readCell readBack)])
      ∧ mainLoop unmarshal readBack ws (id :: rest) i st
          = mainLoop unmarshal readBack ws rest (i + 1)
              (processID unmarshal readBack (ws i) id st) := by
  have hreview := reviewCount_of_fetched unmarshal (ws i).fetch id p readBack hfetch hread
  obtain ⟨h1, h2, h3⟩ := processID_sheet unmarshal readBack (ws i) id st s p hsheet hfetch
  have hrows := getRows_writeCells readBack s p hreview
  refine ⟨?_, ?_, rfl⟩
  · intro hfail
    have hsave : (ws i).save ≠ none := by
      intro h0
      rw [h0] at hfail
      simp [writeProductToExcel] at hfail
    refine ⟨processID_csv_unchanged unmarshal readBack (ws i) id st (Or.inl hsave), h3 hsave,
      ⟨_, h1, hrows⟩, ?_, ?_⟩
    · simp only [getNextExcelRow, h1, hrows, List.length_append, List.length_singleton]
    · intro iw2 id2 p2 hfetch2 hsave2
      have hreview2 := reviewCount_of_fetched unmarshal iw2.fetch id2 p2 readBack hfetch2 hread
      obtain ⟨_, k2, _⟩ := processID_sheet unmarshal readBack iw2 id2
        (processID unmarshal readBack (ws i) id st) _ p2 h1 hfetch2
      refine ⟨_, k2 hsave2, ?_⟩
      rw [getRows_writeCells readBack _ p2 hreview2, hrows]
      simp
  · intro hok hfail
    have hsave : (ws i).save = none := by
      cases hsave : (ws i).save with
      | some e => simp [hsave, writeProductToExcel] at hok
      | none => rfl
    have hcsv : (ws i).csvWrite ≠ none ∨ (ws i).csvFlush ≠ none := by
      cases hw : (ws i).csvWrite with
      | some e => exact Or.inl (by simp)
      | none =>
        cases hf : (ws i).csvFlush with
        | some e => exact Or.inr (by simp)
        | none => simp [hw, hf, writeProductToCSV] at hfail
    exact ⟨processID_csv_unchanged unmarshal readBack (ws i) id st (Or.inr hcsv),
      _, h1, h2 hsave, hrows⟩

/-- C8 amended, at a sample: the save fails; the delimited file and the saved
file stay as they were and the row stays in the open workbook. -/
theorem C8_write_failure_skips_record_witness :
    (processID sampleUnmarshal sampleReadBack
        (sampleIdWorld (fun _ => plainResponse 200 "payload") (some "disk full") none)
        "AB1234" sampleState).csv = []
      ∧ (processID sampleUnmarshal sampleReadBack
          (sampleIdWorld (fun _ => plainResponse 200 "payload") (some "disk full") none)
          "AB1234" sampleState).excel.disk = some [["ID", "URL"]]
      ∧ getNextExcelRow sampleReadBack (processID sampleUnmarshal sampleReadBack
          (sampleIdWorld (fun _ => plainResponse 200 "payload") (some "disk full") none)
          "AB1234" sampleState).excel = 3 :=
  have h := (C8_write_failure_skips_record sampleUnmarshal sampleReadBack
    (fun _ => sampleIdWorld (fun _ => plainResponse 200 "payload") (some "disk full") none)
    "AB1234" [] 0 sampleState [["ID", "URL"]] _ rfl rfl (by decide)).1
    (by simp [writeProductToExcel, sampleIdWorld])
  ⟨h.1, h.2.1, h.2.2.2.1⟩

/-- C9 as stated fails: with the identifiers "ZZ0000" and "AB1234", the fetch
of the first meeting a 404 and the fetch of the second a 200, the main loop
sends the request of the second identifier right after the diagnostic file of
the first; the only delay is the one that closes the second pass. -/
theorem C9_counterexample :
    (mainLoop sampleUnmarshal sampleReadBack sampleWorlds404 ["ZZ0000", "AB1234"] 0 sampleState).effects
        = [.request "https://www.adidas.jp/api/products/ZZ0000",
           .writeFile (errorFile 404 1) "not found",
           .request "https://www.adidas.jp/api/products/AB1234",
           .sleep 3]
      ∧ sleeps (processID sampleUnmarshal sampleReadBack (sampleWorlds404 0) "ZZ0000" sampleState).effects
          = [] := by
  constructor <;> rfl

/-- C9, amended: the pass of an identifier ends with a delay of 2 to 4 seconds,
after everything else it did, when the record was fetched, decoded and written
to both sinks; when the fetch, the decoding or one of the two writes fails, the
pass adds nothing to the effects of the fetch, so no delay of the main loop
separates it from the next identifier. -/
theorem C9_delay_after_written_record (unmarshal : Bytes → Except String ApiData)
    (readBack : String → String) (iw : IdWorld) (id : String) (st : State) :
    (∀ p, (getProductDetails unmarshal iw.fetch id).1 = .ok p → iw.save = none →
        iw.csvWrite = none → iw.csvFlush = none →
        ∃ d, 2 ≤ d ∧ d ≤ 4
          ∧ (processID unmarshal readBack iw id st).effects
              = st.effects ++ (getProductDetails unmarshal iw.fetch id).2 ++ [.sleep d])
      ∧ (((∃ e, (getProductDetails unmarshal iw.fetch id).1 = .error e) ∨ iw.save ≠ none
            ∨ iw.csvWrite ≠ none ∨ iw.csvFlush ≠ none) →
          (processID unmarshal readBack iw id st).effects
            = st.effects ++ (getProductDetails unmarshal iw.fetch id).2) := by
  unfold processID
  generalize getProductDetails unmarshal iw.fetch id = res
  obtain ⟨r, fetched⟩ := res
  refine ⟨?_, ?_⟩
  · intro p hp hsave hw hf
    simp only at hp
    subst hp
    refine ⟨2 + randIntn iw.delay 3, by omega, ?_, ?_⟩
    · unfold randIntn
      have := Nat.mod_lt iw.delay (show 0 < 3 by decide)
      omega
    · simp [hsave, hw, hf, writeProductToExcel, writeProductToCSV]
  · intro hfail
    cases r with
    | error e => rfl
    | ok p =>
      simp only
      cases hsave : iw.save with
      | some e => simp [writeProductToExcel]
      | none =>
        cases hw : iw.csvWrite with
        | some e => simp [writeProductToExcel, writeProductToCSV]
        | none =>
          cases hf : iw.csvFlush with
          | some e => simp [writeProductToExcel, writeProductToCSV]
          | none => simp [hsave, hw, hf] at hfail

/-- C9 amended, at a sample: a fetched and written record is followed by a
delay of 3 seconds. -/
theorem C9_delay_after_written_record_witness :
    ∃ d, 2 ≤ d ∧ d ≤ 4
      ∧ (processID sampleUnmarshal sampleReadBack
            (sampleIdWorld (fun _ => plainResponse 200 "payload") none none)
            "AB1234" sampleState).effects
          = sampleState.effects
              ++ (getProductDetails sampleUnmarshal
                    (sampleIdWorld (fun _ => plainResponse 200 "payload") none none).fetch
                    "AB1234").2
              ++ [.sleep d] :=
  (C9_delay_after_written_record sampleUnmarshal sampleReadBack
    (sampleIdWorld (fun _ => plainResponse 200 "payload") none none) "AB1234" sampleState).1
    _ rfl rfl rfl rfl

/-! ## Lemmas on the matcher and the extractor loops -/

theorem mem_findAllLoop (re : List Atom) :
    ∀ (input : List Char) (prev : Option Char) (skip : Nat) (ended : Bool) (m : List String),
      m ∈ findAllLoop re prev input skip ended →
        ∃ prev' input' st rest, matchHere re prev' input' ⟨[], [], false⟩ = some (st, rest)
          ∧ m = submatches st := by
  intro input
  induction input with
  | nil =>
    intro prev skip ended m hm
    unfold findAllLoop at hm
    split at hm
    · next heq =>
      split at hm
      · simp at hm
      · simp at hm; exact ⟨_, _, _, _, heq, hm⟩
    · simp at hm
  | cons c cs ih =>
    intro prev skip ended m hm
    cases skip with
    | zero =>
      unfold findAllLoop at hm
      split at hm
      · next heq =>
        split at hm
        · split at hm
          · exact ih _ _ _ m hm
          · rcases List.mem_cons.mp hm with h | h
            · exact ⟨_, _, _, _, heq, h⟩
            · exact ih _ _ _ m h
        · rcases List.mem_cons.mp hm with h | h
          · exact ⟨_, _, _, _, heq, h⟩
          · exact ih _ _ _ m h
      · exact ih _ _ _ m hm
    | succ k =>
      unfold findAllLoop at hm
      exact ih _ _ _ m hm

theorem length_of_mem_FindAllStringSubmatch (re : List Atom) (s : String) (m : List String)
    (hm : m ∈ FindAllStringSubmatch re s) : m.length = 2 := by
  obtain ⟨_, _, st, _, _, hst⟩ := mem_findAllLoop re _ _ _ _ m hm
  rw [hst]; rfl

theorem collectLoop_new (existingSKUs : String → Bool) (m : List String)
    (rest : List (List String)) (skus : List String) (skuMap : String → Bool)
    (hlen : 1 < m.length) (h1 : skuMap (m.getD 1 "") = false)
    (h2 : existingSKUs (m.getD 1 "") = false) :
    collectLoop existingSKUs (m :: rest) (skus, skuMap)
      = collectLoop existingSKUs rest (skus ++ [m.getD 1 ""], mapSet skuMap (m.getD 1 "")) := by
  rw [collectLoop]
  simp only [gt_iff_lt, hlen, if_true, h1, h2, Bool.not_false, Bool.and_self]

theorem collectLoop_old (existingSKUs : String → Bool) (m : List String)
    (rest : List (List String)) (skus : List String) (skuMap : String → Bool)
    (h : ¬ (1 < m.length ∧ skuMap (m.getD 1 "") = false ∧ existingSKUs (m.getD 1 "") = false)) :
    collectLoop existingSKUs (m :: rest) (skus, skuMap)
      = collectLoop existingSKUs rest (skus, skuMap) := by
  rw [collectLoop]
  by_cases hlen : 1 < m.length
  · simp only [gt_iff_lt, hlen, if_true]
    cases h1 : skuMap (m.getD 1 "") with
    | true => simp only [Bool.not_true, Bool.false_and, Bool.false_eq_true, if_false]
    | false =>
      cases h2 : existingSKUs (m.getD 1 "") with
      | true => simp only [Bool.not_true, Bool.and_false, Bool.false_eq_true, if_false]
      | false => exact absurd ⟨hlen, h1, h2⟩ h
  · simp only [gt_iff_lt, hlen, if_false]

theorem matchHere_cls (p : Char → Bool) (rest : List Atom) (prev : Option Char)
    (input : List Char) (st : MatchState) (r : MatchState × List Char)
    (h : matchHere (.cls p :: rest) prev input st = some r) :
    ∃ c cs, input = c :: cs ∧ p c = true ∧ matchHere rest (some c) cs (st.push c) = some r := by
  cases input with
  | nil => simp [matchHere] at h
  | cons c cs =>
    by_cases hp : p c = true
    · simp only [matchHere, hp, if_true] at h
      exact ⟨c, cs, rfl, hp, h⟩
    · simp [matchHere, hp] at h

theorem matchHere_char (a : Char) (rest : List Atom) (prev : Option Char)
    (input : List Char) (st : MatchState) (r : MatchState × List Char)
    (h : matchHere (.char a :: rest) prev input st = some r) :
    ∃ cs, input = a :: cs ∧ matchHere rest (some a) cs (st.push a) = some r := by
  cases input with
  | nil => simp [matchHere] at h
  | cons c cs =>
    by_cases hp : c = a
    · subst hp
      simp only [matchHere, if_true] at h
      exact ⟨cs, rfl, h⟩
    · simp [matchHere, hp] at h

theorem starLoop_reach (p : Char → Bool)
    (k : Option Char → List Char → MatchState → Option (MatchState × List Char))
    (r : MatchState × List Char) :
    ∀ (input : List Char) (prev : Option Char) (st : MatchState),
      starLoop p k prev input st = some r → ∃ prev' input' st', k prev' input' st' = some r := by
  intro input
  induction input with
  | nil => intro prev st h; exact ⟨prev, [], st, h⟩
  | cons c cs ih =>
    intro prev st h
    unfold starLoop at h
    split at h
    · split at h
      · next heq =>
        injection h with h
        subst h
        exact ih _ _ heq
      · exact ⟨_, _, _, h⟩
    · exact ⟨_, _, _, h⟩

theorem matchHere_append (post : List Atom) (r : MatchState × List Char) :
    ∀ (pre : List Atom) (prev : Option Char) (input : List Char) (st : MatchState),
      matchHere (pre ++ post) prev input st = some r →
        ∃ prev' input' st', matchHere post prev' input' st' = some r := by
  intro pre
  induction pre with
  | nil => intro prev input st h; exact ⟨prev, input, st, h⟩
  | cons a pre ih =>
    intro prev input st h
    rw [List.cons_append] at h
    cases a with
    | char c =>
      obtain ⟨cs, _, h'⟩ := matchHere_char c _ prev input st r h
      exact ih _ _ _ h'
    | cls p =>
      obtain ⟨c, cs, _, _, h'⟩ := matchHere_cls p _ prev input st r h
      exact ih _ _ _ h'
    | star p =>
      simp only [matchHere] at h
      obtain ⟨prev', input', st', h'⟩ := starLoop_reach p _ r input prev st h
      exact ih _ _ _ h'
    | wordBoundary =>
      simp only [matchHere] at h
      split at h
      · exact ih _ _ _ h
      · simp at h
    | groupOpen =>
      simp only [matchHere] at h
      exact ih _ _ _ h
    | groupClose =>
      simp only [matchHere] at h
      exact ih _ _ _ h

theorem starLoop_group (p : Char → Bool)
    (k : Option Char → List Char → MatchState → Option (MatchState × List Char))
    (r : MatchState × List Char) (g : List Char)
    (hk : ∀ prev' input' st', st'.inGroup = false → st'.group = g →
      k prev' input' st' = some r → r.1.group = g) :
    ∀ (input : List Char) (prev : Option Char) (st : MatchState),
      st.inGroup = false → st.group = g → starLoop p k prev input st = some r →
        r.1.group = g := by
  intro input
  induction input with
  | nil => intro prev st h1 h2 h; exact hk _ _ _ h1 h2 h
  | cons c cs ih =>
    intro prev st h1 h2 h
    unfold starLoop at h
    split at h
    · split at h
      · next heq =>
        injection h with h
        subst h
        exact ih _ (st.push c) (by simp [MatchState.push, h1])
          (by simp [MatchState.push, h1, h2]) heq
      · exact hk _ _ _ h1 h2 h
    · exact hk _ _ _ h1 h2 h

theorem matchHere_group (r : MatchState × List Char) (g : List Char) :
    ∀ (atoms : List Atom), (∀ a ∈ atoms, a.opensGroup = false) →
      ∀ (prev : Option Char) (input : List Char) (st : MatchState),
        st.inGroup = false → st.group = g → matchHere atoms prev input st = some r →
          r.1.group = g := by
  intro atoms
  induction atoms with
  | nil =>
    intro _ prev input st h1 h2 h
    simp only [matchHere] at h
    injection h with h
    rw [← h]; exact h2
  | cons a atoms ih =>
    intro hno prev input st h1 h2 h
    have hno' : ∀ a ∈ atoms, a.opensGroup = false := fun x hx => hno x (List.mem_cons_of_mem _ hx)
    cases a with
    | char c =>
      obtain ⟨cs, _, h'⟩ := matchHere_char c _ prev input st r h
      exact ih hno' _ _ _ (by simp [MatchState.push, h1]) (by simp [MatchState.push, h1, h2]) h'
    | cls p =>
      obtain ⟨c, cs, _, _, h'⟩ := matchHere_cls p _ prev input st r h
      exact ih hno' _ _ _ (by simp [MatchState.push, h1]) (by simp [MatchState.push, h1, h2]) h'
    | star p =>
      simp only [matchHere] at h
      exact starLoop_group p _ r g (fun prev' input' st' e1 e2 e => ih hno' _ _ _ e1 e2 e)
        input prev st h1 h2 h
    | wordBoundary =>
      simp only [matchHere] at h
      split at h
      · exact ih hno' _ _ _ h1 h2 h
      · simp at h
    | groupOpen =>
      have := hno .groupOpen (List.mem_cons_self _ _)
      simp [Atom.opensGroup] at this
    | groupClose =>
      simp only [matchHere] at h
      exact ih hno' _ _ { st with inGroup := false } rfl h2 h

theorem matchHere_skuGroup (tail : List Atom) (htail : ∀ a ∈ tail, a.opensGroup = false)
    (prev : Option Char) (input : List Char) (st : MatchState) (r : MatchState × List Char)
    (h : matchHere (skuGroup ++ tail) prev input st = some r) :
    isSKU (String.mk r.1.group.reverse) = true := by
  have h0 : matchHere (.cls isUpper :: .cls isUpper :: .cls isDigit :: .cls isDigit
      :: .cls isDigit :: .cls isDigit :: .groupClose :: tail) prev input
      { st with group := [], inGroup := true } = some r := h
  obtain ⟨a, i1, _, ha, h1⟩ := matchHere_cls _ _ _ _ _ r h0
  obtain ⟨b, i2, _, hb, h2⟩ := matchHere_cls _ _ _ _ _ r h1
  obtain ⟨c, i3, _, hc, h3⟩ := matchHere_cls _ _ _ _ _ r h2
  obtain ⟨d, i4, _, hd, h4⟩ := matchHere_cls _ _ _ _ _ r h3
  obtain ⟨e, i5, _, he, h5⟩ := matchHere_cls _ _ _ _ _ r h4
  obtain ⟨f, i6, _, hf, h6⟩ := matchHere_cls _ _ _ _ _ r h5
  simp only [matchHere] at h6
  have hg := matchHere_group r [f, e, d, c, b, a] tail htail _ _ _ rfl rfl h6
  rw [hg]
  simp [isSKU, ha, hb, hc, hd, he, hf]

theorem isSKU_of_mem_link (s : String) (m : List String)
    (hm : m ∈ FindAllStringSubmatch linkRe s) : isSKU (m.getD 1 "") = true := by
  obtain ⟨prev, input, st, rest, hmatch, hst⟩ := mem_findAllLoop linkRe _ _ _ _ m hm
  have hre : linkRe = (lit "href=\"" ++ [.star notQuote] ++ lit "/products/")
      ++ (skuGroup ++ ([.star notQuote] ++ lit "\"")) := by
    simp [linkRe]
  rw [hre] at hmatch
  obtain ⟨prev', input', st', h'⟩ := matchHere_append _ _ _ _ _ _ hmatch
  have := matchHere_skuGroup _ (by decide) _ _ _ _ h'
  rw [hst]
  exact this

theorem isSKU_of_mem_text (s : String) (m : List String)
    (hm : m ∈ FindAllStringSubmatch textRe s) : isSKU (m.getD 1 "") = true := by
  obtain ⟨prev, input, st, rest, hmatch, hst⟩ := mem_findAllLoop textRe _ _ _ _ m hm
  have hre : textRe = [.wordBoundary] ++ (skuGroup ++ [.wordBoundary]) := rfl
  rw [hre] at hmatch
  obtain ⟨prev', input', st', h'⟩ := matchHere_append _ _ _ _ _ _ hmatch
  have := matchHere_skuGroup _ (by decide) _ _ _ _ h'
  rw [hst]
  exact this

theorem inv_push (existingSKUs : String → Bool) (skus : List String) (skuMap : String → Bool)
    (sku : String) (hmap : ∀ s, skuMap s = true ↔ s ∈ skus) (hnd : skus.Nodup)
    (hex : ∀ s ∈ skus, existingSKUs s = false) (hn1 : skuMap sku = false)
    (hn2 : existingSKUs sku = false) :
    (∀ s, mapSet skuMap sku s = true ↔ s ∈ skus ++ [sku])
      ∧ (skus ++ [sku]).Nodup
      ∧ (∀ s ∈ skus ++ [sku], existingSKUs s = false) := by
  have hnotin : sku ∉ skus := by
    intro hin
    have := (hmap _).mpr hin
    rw [hn1] at this
    exact Bool.noConfusion this
  refine ⟨?_, ?_, ?_⟩
  · intro s
    by_cases hs : s = sku
    · simp [mapSet, hs]
    · simp [mapSet, hs, hmap]
  · rw [List.nodup_append]
    refine ⟨hnd, by simp, ?_⟩
    intro a ha hb
    simp at hb
    rw [hb] at ha
    exact hnotin ha
  · intro s hs
    rcases List.mem_append.mp hs with h | h
    · exact hex s h
    · simp at h; rw [h]; exact hn2

theorem collectLoop_spec (existingSKUs : String → Bool) :
    ∀ (ms : List (List String)) (skus : List String) (skuMap : String → Bool),
      (∀ s, skuMap s = true ↔ s ∈ skus) → skus.Nodup → (∀ s ∈ skus, existingSKUs s = false) →
      (∀ s, (collectLoop existingSKUs ms (skus, skuMap)).2 s = true
          ↔ s ∈ (collectLoop existingSKUs ms (skus, skuMap)).1)
        ∧ (collectLoop existingSKUs ms (skus, skuMap)).1.Nodup
        ∧ (∀ s ∈ (collectLoop existingSKUs ms (skus, skuMap)).1, existingSKUs s = false)
        ∧ (∀ s ∈ skus, s ∈ (collectLoop existingSKUs ms (skus, skuMap)).1)
        ∧ (∀ m ∈ ms, 1 < m.length → existingSKUs (m.getD 1 "") = false →
            m.getD 1 "" ∈ (collectLoop existingSKUs ms (skus, skuMap)).1)
        ∧ (∀ s ∈ (collectLoop existingSKUs ms (skus, skuMap)).1,
            s ∈ skus ∨ ∃ m ∈ ms, 1 < m.length ∧ m.getD 1 "" = s) := by
  intro ms
  induction ms with
  | nil =>
    intro skus skuMap hmap hnd hex
    simp only [collectLoop]
    exact ⟨hmap, hnd, hex, fun s hs => hs, fun m hm => absurd hm (List.not_mem_nil m),
      fun s hs => Or.inl hs⟩
  | cons m rest ih =>
    intro skus skuMap hmap hnd hex
    by_cases hnew : 1 < m.length ∧ skuMap (m.getD 1 "") = false
        ∧ existingSKUs (m.getD 1 "") = false
    · obtain ⟨hlen, hn1, hn2⟩ := hnew
      rw [collectLoop_new existingSKUs m rest skus skuMap hlen hn1 hn2]
      obtain ⟨i1, i2, i3⟩ := inv_push existingSKUs skus skuMap (m.getD 1 "") hmap hnd hex hn1 hn2
      obtain ⟨h1, h2, h3, h4, h5, h6⟩ := ih (skus ++ [m.getD 1 ""]) (mapSet skuMap (m.getD 1 ""))
        i1 i2 i3
      refine ⟨h1, h2, h3, fun s hs => h4 s (List.mem_append_left _ hs), ?_, ?_⟩
      · intro m' hm' hl' he'
        rcases List.mem_cons.mp hm' with h | h
        · rw [h]
          exact h4 _ (List.mem_append_right _ (List.mem_singleton_self _))
        · exact h5 m' h hl' he'
      · intro s hs
        rcases h6 s hs with h | ⟨m', hm', hl', hc'⟩
        · rcases List.mem_append.mp h with h | h
          · exact Or.inl h
          · exact Or.inr ⟨m, List.mem_cons_self _ _, hlen, (List.mem_singleton.mp h).symm⟩
        · exact Or.inr ⟨m', List.mem_cons_of_mem _ hm', hl', hc'⟩
    · rw [collectLoop_old existingSKUs m rest skus skuMap hnew]
      obtain ⟨h1, h2, h3, h4, h5, h6⟩ := ih skus skuMap hmap hnd hex
      refine ⟨h1, h2, h3, h4, ?_, ?_⟩
      · intro m' hm' hl' he'
        rcases List.mem_cons.mp hm' with h | h
        · rw [h] at he' hl' ⊢
          have hseen : skuMap (m.getD 1 "") = true := by
            cases hsm : skuMap (m.getD 1 "") with
            | true => rfl
            | false => exact absurd ⟨hl', hsm, he'⟩ hnew
          exact h4 _ ((hmap _).mp hseen)
        · exact h5 m' h hl' he'
      · intro s hs
        rcases h6 s hs with h | ⟨m', hm', hl', hc'⟩
        · exact Or.inl h
        · exact Or.inr ⟨m', List.mem_cons_of_mem _ hm', hl', hc'⟩

/-! ## Claim on the identifier extractor -/

/-- C10: for a readable page and any existing identifier set, the list that
`extractSKUsFromHTML` returns has no identifier twice and no member of the
existing set; it holds the identifier captured by every match of the href
pattern and of the standalone pattern that is not in the existing set, and
nothing else; every identifier in it is two uppercase letters followed by four
digits; and the page of the specification's example with the existing set
`{"AB1234"}` gives exactly `["CD5678"]`. -/
theorem C10_extract_dedup_complete (readFile : String → Except String String)
    (filePath html : String) (existingSKUs : String → Bool)
    (hread : readFile filePath = .ok html) :
    ∃ skus, extractSKUsFromHTML readFile filePath existingSKUs = .ok skus
      ∧ skus.Nodup
      ∧ (∀ s ∈ skus, existingSKUs s = false)
      ∧ (∀ m ∈ FindAllStringSubmatch linkRe html ++ FindAllStringSubmatch textRe html,
          existingSKUs (m.getD 1 "") = false → m.getD 1 "" ∈ skus)
      ∧ (∀ s ∈ skus, ∃ m ∈ FindAllStringSubmatch linkRe html ++ FindAllStringSubmatch textRe html,
          m.getD 1 "" = s)
      ∧ (∀ s ∈ skus, isSKU s = true)
      ∧ extractSKUsFromHTML (fun _ => .ok samplePage) "page.html" (mapSet emptyMap "AB1234")
          = .ok ["CD5678"] := by
  obtain ⟨a1, a2, a3, a4, a5, a6⟩ := collectLoop_spec existingSKUs
    (FindAllStringSubmatch linkRe html) [] emptyMap (by simp [emptyMap]) List.nodup_nil
    (by simp)
  obtain ⟨b1, b2, b3, b4, b5, b6⟩ := collectLoop_spec existingSKUs
    (FindAllStringSubmatch textRe html) _ _ a1 a2 a3
  have hsound : ∀ s ∈ (collectLoop existingSKUs (FindAllStringSubmatch textRe html)
      (collectLoop existingSKUs (FindAllStringSubmatch linkRe html) ([], emptyMap))).1,
      ∃ m, (m ∈ FindAllStringSubmatch linkRe html ∨ m ∈ FindAllStringSubmatch textRe html)
        ∧ m.getD 1 "" = s := by
    intro s hs
    rcases b6 s hs with h | ⟨m, hm, _, hc⟩
    · rcases a6 s h with h' | ⟨m, hm, _, hc⟩
      · exact absurd h' (List.not_mem_nil s)
      · exact ⟨m, Or.inl hm, hc⟩
    · exact ⟨m, Or.inr hm, hc⟩
  refine ⟨_, by simp only [extractSKUsFromHTML, hread], b2, b3, ?_, ?_, ?_, rfl⟩
  · intro m hm he
    rcases List.mem_append.mp hm with h | h
    · exact b4 _ (a5 m h (by rw [length_of_mem_FindAllStringSubmatch _ _ m h]; decide) he)
    · exact b5 m h (by rw [length_of_mem_FindAllStringSubmatch _ _ m h]; decide) he
  · intro s hs
    obtain ⟨m, hm, hc⟩ := hsound s hs
    exact ⟨m, List.mem_append.mpr hm, hc⟩
  · intro s hs
    obtain ⟨m, hm, hc⟩ := hsound s hs
    rw [← hc]
    rcases hm with h | h
    · exact isSKU_of_mem_link html m h
    · exact isSKU_of_mem_text html m h

/-- C10, at the page of the specification's example with an empty existing
set: the href match comes first. -/
theorem C10_extract_dedup_complete_witness :
    ∃ skus, extractSKUsFromHTML (fun _ => .ok samplePage) "page.html" emptyMap = .ok skus
      ∧ skus.Nodup ∧ (∀ s ∈ skus, isSKU s = true) :=
  (C10_extract_dedup_complete (fun _ => .ok samplePage) "page.html" samplePage emptyMap rfl).elim
    (fun skus h => ⟨skus, h.1, h.2.1, h.2.2.2.2.2.1⟩)

/-! ## Lemmas on trimming and splitting -/

theorem splitChars_ne_nil (l : List Char) : splitChars l ≠ [] := by
  cases l with
  | nil => simp [splitChars]
  | cons c cs =>
    unfold splitChars
    split
    · simp
    · split <;> simp

theorem splitChars_concat_nl (l : List Char) :
    splitChars (l ++ ['\n']) = splitChars l ++ [[]] := by
  induction l with
  | nil => rfl
  | cons c cs ih =>
    rw [List.cons_append]
    unfold splitChars
    by_cases hc : c = '\n'
    · simp only [hc, if_true, ih, List.cons_append]
    · simp only [hc, if_false, ih]
      cases h : splitChars cs with
      | nil => exact absurd h (splitChars_ne_nil cs)
      | cons first rest => rfl

theorem splitChars_concat (l : List Char) (c : Char) (hc : c ≠ '\n') :
    splitChars (l ++ [c]) = appendLast c (splitChars l) := by
  induction l with
  | nil => simp [splitChars, hc, appendLast]
  | cons d ds ih =>
    rw [List.cons_append]
    unfold splitChars
    by_cases hd : d = '\n'
    · simp only [hd, if_true, ih]
      cases h : splitChars ds with
      | nil => exact absurd h (splitChars_ne_nil ds)
      | cons first rest => rfl
    · simp only [hd, if_false, ih]
      cases h : splitChars ds with
      | nil => exact absurd h (splitChars_ne_nil ds)
      | cons first rest =>
        cases rest with
        | nil => rfl
        | cons y r => rfl

theorem dropWhile_concat (p : Char → Bool) (c : Char) (x : List Char) :
    (x ++ [c]).dropWhile p
      = if x.dropWhile p = [] then (if p c then [] else [c]) else x.dropWhile p ++ [c] := by
  induction x with
  | nil => cases h : p c <;> simp [List.dropWhile, h]
  | cons d ds ih =>
    by_cases hd : p d = true
    · simp only [List.cons_append, List.dropWhile_cons_of_pos hd, ih]
    · simp [List.dropWhile_cons_of_neg hd]

theorem trimChars_cons_space (c : Char) (x : List Char) (hc : isSpace c = true) :
    trimChars (c :: x) = trimChars x := by
  simp [trimChars, List.dropWhile_cons_of_pos hc]

theorem trimChars_concat_space (c : Char) (x : List Char) (hc : isSpace c = true) :
    trimChars (x ++ [c]) = trimChars x := by
  unfold trimChars
  rw [dropWhile_concat]
  by_cases h : x.dropWhile isSpace = []
  · simp [h, hc]
  · simp only [h, if_false]
    exact List.rdropWhile_concat_pos _ _ _ hc

theorem keptChars_cons (x : List Char) (ls : List (List Char)) :
    keptChars (x :: ls)
      = (if (trimChars x).isEmpty then [] else [trimChars x]) ++ keptChars ls := by
  unfold keptChars
  by_cases h : (trimChars x).isEmpty = true <;> simp [List.filter_cons, h]

theorem keptChars_appendLast (c : Char) (hc : isSpace c = true) :
    ∀ (ls : List (List Char)), ls ≠ [] → keptChars (appendLast c ls) = keptChars ls := by
  intro ls
  induction ls with
  | nil => intro h; exact absurd rfl h
  | cons x rest ih =>
    intro _
    cases rest with
    | nil =>
      simp only [appendLast, keptChars_cons, trimChars_concat_space c x hc]
    | cons y r =>
      simp only [appendLast]
      rw [keptChars_cons, keptChars_cons x, ih (by simp)]

theorem keptChars_splitChars_dropWhile (l : List Char) :
    keptChars (splitChars (l.dropWhile isSpace)) = keptChars (splitChars l) := by
  induction l with
  | nil => rfl
  | cons c cs ih =>
    by_cases hc : isSpace c = true
    · rw [List.dropWhile_cons_of_pos hc, ih]
      by_cases hnl : c = '\n'
      · subst hnl
        conv_rhs => unfold splitChars
        simp only [if_true, keptChars_cons]
        simp [trimChars]
      · conv_rhs => unfold splitChars
        simp only [hnl, if_false]
        cases h : splitChars cs with
        | nil => exact absurd h (splitChars_ne_nil cs)
        | cons first rest =>
          simp only [keptChars_cons, trimChars_cons_space c first hc]
    · rw [List.dropWhile_cons_of_neg hc]

theorem keptChars_splitChars_rdropWhile (l : List Char) :
    keptChars (splitChars (l.rdropWhile isSpace)) = keptChars (splitChars l) := by
  induction l using List.reverseRecOn with
  | nil => rfl
  | append_singleton y c ih =>
    by_cases hc : isSpace c = true
    · rw [List.rdropWhile_concat_pos _ _ _ hc, ih]
      by_cases hnl : c = '\n'
      · subst hnl
        rw [splitChars_concat_nl]
        unfold keptChars
        simp [trimChars]
      · rw [splitChars_concat y c hnl, keptChars_appendLast c hc _ (splitChars_ne_nil y)]
    · rw [List.rdropWhile_concat_neg _ _ _ hc]

theorem keptChars_splitChars_trimChars (l : List Char) :
    keptChars (splitChars (trimChars l)) = keptChars (splitChars l) := by
  unfold trimChars
  rw [keptChars_splitChars_rdropWhile, keptChars_splitChars_dropWhile]

theorem readLoop_eq (lines ids : List String) :
    readLoop lines ids = ids ++ (lines.map TrimSpace).filter (fun id => id ≠ "") := by
  induction lines generalizing ids with
  | nil => simp [readLoop]
  | cons line rest ih =>
    by_cases h : TrimSpace line = ""
    · simp [readLoop, h, ih, List.filter_cons]
    · simp [readLoop, h, ih, List.filter_cons]

theorem kept_map_mk (ls : List (List Char)) :
    ((ls.map String.mk).map TrimSpace).filter (fun id => id ≠ "")
      = (keptChars ls).map String.mk := by
  induction ls with
  | nil => rfl
  | cons x rest ih =>
    have hx : TrimSpace (String.mk x) = String.mk (trimChars x) := rfl
    rw [keptChars_cons]
    simp only [List.map_cons, List.filter_cons, hx, ih, List.map_append]
    cases h : trimChars x with
    | nil => simp
    | cons a b =>
      have hne : String.mk (a :: b) ≠ "" := by
        intro h'
        have := congrArg String.data h'
        simp at this
      simp [hne]

theorem trimmedLines_eq (data : String) :
    trimmedLines data = (keptChars (splitChars data.data)).map String.mk := by
  unfold trimmedLines splitLines
  exact kept_map_mk _

theorem readSKUs_eq (readFile : String → Except String String) (filename data : String)
    (hread : readFile filename = .ok data) :
    readSKUs readFile filename = .ok (trimmedLines data) := by
  unfold readSKUs
  rw [hread]
  simp only
  rw [readLoop_eq, List.nil_append, trimmedLines_eq]
  unfold splitLines
  rw [kept_map_mk]
  have : (TrimSpace data).data = trimChars data.data := rfl
  rw [this, keptChars_splitChars_trimChars]

theorem trimChars_edges (x : List Char) (c : Char)
    (h : (trimChars x).head? = some c ∨ (trimChars x).getLast? = some c) :
    isSpace c = false := by
  rcases h with h | h
  · unfold trimChars at h
    have hpre := List.rdropWhile_prefix isSpace (x.dropWhile isSpace)
    obtain ⟨t, ht⟩ := hpre
    have hhead : (x.dropWhile isSpace).head? = some c := by
      rw [← ht]
      cases hr : List.rdropWhile isSpace (x.dropWhile isSpace) with
      | nil => rw [hr] at h; simp at h
      | cons a b => rw [hr] at h; simpa using h
    have := List.head?_dropWhile_not isSpace x
    rw [hhead] at this
    exact this
  · have hne : trimChars x ≠ [] := by
      intro h0; rw [h0] at h; simp at h
    have hlast := List.rdropWhile_last_not isSpace (x.dropWhile isSpace) hne
    rw [List.getLast?_eq_getLast _ hne] at h
    injection h with h
    have : (trimChars x).getLast hne = c := h
    unfold trimChars at this
    rw [this] at hlast
    simpa using hlast

theorem mem_keptChars {ls : List (List Char)} {l : List Char} (h : l ∈ keptChars ls) :
    l ≠ [] ∧ ∃ x ∈ ls, l = trimChars x := by
  unfold keptChars at h
  rw [List.mem_filter, List.mem_map] at h
  obtain ⟨⟨x, hx, hxl⟩, hne⟩ := h
  refine ⟨?_, x, hx, hxl.symm⟩
  intro h0
  rw [h0] at hne
  simp at hne

theorem keptChars_blank (ls : List (List Char)) (h : ∀ x ∈ ls, ∀ c ∈ x, isSpace c = true) :
    keptChars ls = [] := by
  unfold keptChars
  rw [List.filter_eq_nil_iff]
  intro l hl
  rw [List.mem_map] at hl
  obtain ⟨x, hx, hxl⟩ := hl
  have : trimChars x = [] := by
    unfold trimChars
    rw [List.dropWhile_eq_nil_iff.mpr (h x hx)]
    rfl
  rw [← hxl, this]
  simp

/-! ## Claim on the identifier file -/

/-- C11: for every content of the identifier file, `readSKUs` returns the lines
of the file in order, each trimmed of surrounding white space, with the blank
lines left out; no entry of the result is empty or starts or ends with white
space; a file whose lines are all blank gives the empty list; and a sample file
with blank lines, a carriage return and surrounding spaces gives its two
identifiers. -/
theorem C11_readSKUs_trimmed_lines (readFile : String → Except String String)
    (filename data : String) (hread : readFile filename = .ok data) :
    readSKUs readFile filename = .ok (trimmedLines data)
      ∧ (∀ id ∈ trimmedLines data, id ≠ ""
          ∧ ∀ c, (id.data.head? = some c ∨ id.data.getLast? = some c) → isSpace c = false)
      ∧ ((∀ line ∈ splitLines data, ∀ c ∈ line.data, isSpace c = true) →
          readSKUs readFile filename = .ok [])
      ∧ readSKUs (fun _ => .ok "  AB1234 \r\n\n \t \nCD5678\n\n") "skus_from_html.txt"
          = .ok ["AB1234", "CD5678"] := by
  refine ⟨readSKUs_eq readFile filename data hread, ?_, ?_, rfl⟩
  · intro id hid
    rw [trimmedLines_eq, List.mem_map] at hid
    obtain ⟨l, hl, hlid⟩ := hid
    obtain ⟨hne, x, _, hx⟩ := mem_keptChars hl
    subst hlid
    refine ⟨?_, ?_⟩
    · intro h
      have := congrArg String.data h
      exact hne this
    · intro c hc
      rw [hx] at hc
      exact trimChars_edges x c hc
  · intro hblank
    rw [readSKUs_eq readFile filename data hread, trimmedLines_eq, keptChars_blank]
    · rfl
    · intro x hx c hc
      exact hblank (String.mk x) (by unfold splitLines; exact List.mem_map_of_mem _ hx) c hc

/-- C11, at a sample: a file of blank lines only. -/
theorem C11_readSKUs_trimmed_lines_witness :
    readSKUs (fun _ => .ok " \n\t\n") "skus_from_html.txt" = .ok [] :=
  (C11_readSKUs_trimmed_lines (fun _ => .ok " \n\t\n") "skus_from_html.txt" " \n\t\n" rfl).2.2.1
    (by decide)

/-! ## Claim on the header rows -/

/-- C12, on the code: the header `initCSV` writes to an empty file and the
header row `initExcel` writes to a new workbook both have 17 entries, and the
two sinks place the 17 fields of a record in the same order, but the headers
differ in the thirteenth entry, which is "Length Appropriation Rating" in the
spreadsheet and the empty string in the delimited file; replacing that one
entry makes the two headers equal. -/
theorem C12_csv_header_thirteenth_blank :
    initCSV "adidas_products.csv" none none 0 [] none = .ok [csvHeaders]
      ∧ (initExcel "adidas_products.xlsx" none none none none).toOption.map
            (fun f => f.sheet) = some (some [excelHeaders])
      ∧ csvHeaders.length = 17 ∧ excelHeaders.length = 17
      ∧ csvHeaders ≠ excelHeaders
      ∧ csvHeaders.getD 12 "" = ""
      ∧ excelHeaders.getD 12 "" = "Length Appropriation Rating"
      ∧ csvHeaders.set 12 "Length Appropriation Rating" = excelHeaders
      ∧ (∀ p : ProductData, excelCells p = (csvRecord p).enumFrom 0)
      ∧ (∀ p : ProductData, (csvRecord p).getD 12 "" = p.RatingLength) := by
  refine ⟨rfl, rfl, rfl, rfl, by decide, rfl, rfl, rfl, fun _ => rfl, fun _ => rfl⟩

end Crawler
